import Mathlib

/-!
# myGPIO service (`PROFILES/myGPIO_service.c`, `PROFILES/myGPIO_service.h`)

A shallow embedding of the GATT service that exposes the one-byte "PIN"
characteristic, and theorems about its parameter accessors and its attribute
read / write callbacks.

Conventions of the embedding.

* A C byte buffer is a `List Nat`; `uint8_t` / `uint16_t` values are `Nat`s.
  Arguments stand for the values of the C parameters. The target (ARM
  Cortex-M) has a 32-bit `int`, so `offset + len` on two `uint16_t` operands is
  computed without wrap-around; the result is reduced `% 65536` where the
  source stores it into a `uint16_t`.
* The file-scope variables of the C file form the record `State`; a function
  that mutates them returns the new state.
* A function returns `none` where the C code would access memory outside the
  object it was handed (a `memcpy` that leaves its source or destination, the
  step `pAttr - 1` in front of the first table row).
* `Log_info*`, `Log_warning*` and `Log_error*` only print and are left out.
* A call through `pAppCBs->pfnChangeCb` is recorded as a `ChangeCall`.
* `State.after` gives the state after one call of any of the five functions,
  `State.run` the state after a sequence of calls.
-/

namespace MyGPIOService

/-! ## Constants -/

/-- Modelled from the spec: status `Success`. `SUCCESS` comes from the BLE
stack header `bcomdef.h`, which is not among the sources; value as in that
header. -/
def SUCCESS : Nat := 0x00

/-- Modelled from the spec: status `Failure(NullListener)`. `FAILURE` comes
from `bcomdef.h`, which is not among the sources. -/
def FAILURE : Nat := 0x01

/-- Modelled from the spec: status `InvalidParameter`. `INVALIDPARAMETER`
comes from `bcomdef.h`, which is not among the sources. -/
def INVALIDPARAMETER : Nat := 0x02

/-- Modelled from the spec: status `InvalidRange`. `bleInvalidRange` comes
from `bcomdef.h`, which is not among the sources. -/
def bleInvalidRange : Nat := 0x18

/-- Modelled from the spec: status `InvalidOffset`. `ATT_ERR_INVALID_OFFSET`
comes from the stack header `att.h`, which is not among the sources. -/
def ATT_ERR_INVALID_OFFSET : Nat := 0x07

/-- Modelled from the spec: status `AttributeNotFound`.
`ATT_ERR_ATTR_NOT_FOUND` comes from `att.h`, which is not among the sources. -/
def ATT_ERR_ATTR_NOT_FOUND : Nat := 0x0A

/-- Modelled from the spec: status `InvalidValueSize`.
`ATT_ERR_INVALID_VALUE_SIZE` comes from `att.h`, which is not among the
sources. -/
def ATT_ERR_INVALID_VALUE_SIZE : Nat := 0x0D

/-- Modelled from the spec: the write method "request". `ATT_WRITE_REQ` is the
ATT Write Request opcode from `att.h`, which is not among the sources. -/
def ATT_WRITE_REQ : Nat := 0x12

/-- Modelled from the spec: a non-atomic prepared-write step.
`ATT_PREPARE_WRITE_REQ` is the ATT Prepare Write Request opcode from `att.h`,
which is not among the sources. -/
def ATT_PREPARE_WRITE_REQ : Nat := 0x16

/-- Modelled from the spec: the write method that executes a queue of prepared
writes. `ATT_EXECUTE_WRITE_REQ` is the ATT Execute Write Request opcode from
`att.h`, which is not among the sources. -/
def ATT_EXECUTE_WRITE_REQ : Nat := 0x18

/-- Modelled from the spec: the write method "command". `ATT_WRITE_CMD` is the
ATT Write Command opcode from `att.h`, which is not among the sources. -/
def ATT_WRITE_CMD : Nat := 0x52

/-- Modelled from the spec: length of the 16-bit short form of a type
identifier. `ATT_BT_UUID_SIZE` comes from `att.h`, which is not among the
sources. -/
def ATT_BT_UUID_SIZE : Nat := 2

/-- Modelled from the spec: length of the 128-bit long form of a type
identifier. `ATT_UUID_SIZE` comes from `att.h`, which is not among the
sources. -/
def ATT_UUID_SIZE : Nat := 16

/-- Modelled from the spec: type identifier of the access-control-configuration
descriptor. `GATT_CLIENT_CHAR_CFG_UUID` comes from `gatt_uuid.h`, which is not
among the sources. -/
def GATT_CLIENT_CHAR_CFG_UUID : Nat := 0x2902

/-- Modelled from the spec: permission "read allowed". `GATT_PERMIT_READ` comes
from `gatt.h`, which is not among the sources. -/
def GATT_PERMIT_READ : Nat := 0x01

/-- Modelled from the spec: permission "write allowed". `GATT_PERMIT_WRITE`
comes from `gatt.h`, which is not among the sources. -/
def GATT_PERMIT_WRITE : Nat := 0x02

/-- Modelled from the spec: the 16-bit type identifier of a service
declaration row. `primaryServiceUUID` is defined in the stack's `gatt_uuid.c`,
which is not among the sources (0x2800, low byte first). -/
def primaryServiceUUID : List Nat := [0x00, 0x28]

/-- Modelled from the spec: the 16-bit type identifier of a characteristic
declaration row. `characterUUID` is defined in the stack's `gatt_uuid.c`, which
is not among the sources (0x2803, low byte first). -/
def characterUUID : List Nat := [0x03, 0x28]

/-- Modelled from the spec: low byte of a 16-bit value. `LO_UINT16` comes from
the stack header `comdef.h`, which is not among the sources. -/
def LO_UINT16 (a : Nat) : Nat := a % 256

/-- Modelled from the spec: high byte of a 16-bit value. `HI_UINT16` comes from
`comdef.h`, which is not among the sources. -/
def HI_UINT16 (a : Nat) : Nat := (a / 256) % 256

/-- Modelled from the spec: the smaller of two values ("copies
`min(requestedLen, curLen)` bytes"). `MIN` comes from `comdef.h`, which is not
among the sources: `(((n) < (m)) ? (n) : (m))`. -/
def MIN (n m : Nat) : Nat := if n < m then n else m

/-- Header constant `#define MYGPIO_SERVICE_SERV_UUID 0X1140`. -/
def MYGPIO_SERVICE_SERV_UUID : Nat := 0x1140

/-- Header constant `#define PS_PIN_ID 0`. -/
def PS_PIN_ID : Nat := 0

/-- Header constant `#define PS_PIN_UUID 0x1141`. -/
def PS_PIN_UUID : Nat := 0x1141

/-- Header constant `#define PS_PIN_UUID_BASE128(uuid)`: the sixteen bytes of the
long identifier built around `uuid`. -/
def PS_PIN_UUID_BASE128 (uuid : Nat) : List Nat :=
  [0x00, 0x00, 0x00, 0x00, 0x00, 0x00, 0x00, 0xB0, 0x00, 0x40, 0x51, 0x04,
   LO_UINT16 uuid, HI_UINT16 uuid, 0x00, 0xF0]

/-- Header constant `#define PS_PIN_LEN 1`: capacity of the value buffer (`maxLen`). -/
def PS_PIN_LEN : Nat := 1

/-- Header constant `#define PS_PIN_LEN_MIN 1`: least committed length (`minLen`). -/
def PS_PIN_LEN_MIN : Nat := 1

/-- The array `CONST uint8_t ps_PINCHARAUUID[ATT_UUID_SIZE]`. -/
def ps_PINCHARAUUID : List Nat := PS_PIN_UUID_BASE128 PS_PIN_UUID

/-! ## Data model -/

/-- The struct `MyGPIOServiceCBs_t`: the two callback pointers of a listener; a function
pointer is an identifier, `none` is `NULL`. -/
structure MyGPIOServiceCBs_t where
  pfnChangeCb : Option Nat
  pfnCfgChangeCb : Option Nat
deriving DecidableEq, Repr

/-- The file-scope variables of `myGPIO_service.c`. -/
structure State where
  /-- Variable `static MyGPIOServiceCBs_t *pAppCBs`. -/
  pAppCBs : Option MyGPIOServiceCBs_t
  /-- Variable `static uint8_t ps_PINProps`. -/
  ps_PINProps : Nat
  /-- Variable `static uint8_t ps_PINVal[PS_PIN_LEN]`. -/
  ps_PINVal : List Nat
  /-- Variable `static uint16_t ps_PINValLen`. -/
  ps_PINValLen : Nat
deriving DecidableEq, Repr

/-- The objects a table row's `pValue` points to. -/
inductive ValueRef where
  | GPIOServiceDec1
  | ps_PINProps
  | ps_PINVal
deriving DecidableEq, Repr

/-- The struct `gattAttrType_t`: length and bytes of a type identifier. -/
structure gattAttrType_t where
  len : Nat
  uuid : List Nat
deriving DecidableEq, Repr

/-- The struct `gattAttribute_t`: one row of an attribute table. -/
structure gattAttribute_t where
  type : gattAttrType_t
  permissions : Nat
  handle : Nat
  pValue : ValueRef
deriving DecidableEq, Repr

/-- One invocation of `pAppCBs->pfnChangeCb( connHandle, svcUuid, paramID,
pValue, len )`; `fn` is the function pointer called. -/
structure ChangeCall where
  fn : Nat
  connHandle : Nat
  svcUuid : Nat
  paramID : Nat
  pValue : List Nat
  len : Nat
deriving DecidableEq, Repr

/-- The state at process start: no listener, `ps_PINVal = {0}`,
`ps_PINValLen = PS_PIN_LEN_MIN`. `ps_PINProps` is
`GATT_PROP_READ | GATT_PROP_WRITE | GATT_PROP_WRITE_NO_RSP`. -/
def State.init : State :=
  { pAppCBs := none
    ps_PINProps := 0x02 ||| 0x08 ||| 0x04
    ps_PINVal := List.replicate PS_PIN_LEN 0
    ps_PINValLen := PS_PIN_LEN_MIN }

/-- The buffer has the size of its C array type `uint8_t[PS_PIN_LEN]`. -/
def State.WF (s : State) : Prop := s.ps_PINVal.length = PS_PIN_LEN

instance (s : State) : Decidable s.WF := by unfold State.WF; infer_instance

/-- The length invariant of the data model: `minLen ≤ curLen ≤ maxLen`. -/
def State.LenInv (s : State) : Prop :=
  PS_PIN_LEN_MIN ≤ s.ps_PINValLen ∧ s.ps_PINValLen ≤ PS_PIN_LEN

instance (s : State) : Decidable s.LenInv := by unfold State.LenInv; infer_instance

/-! ## Memory access -/

/-- Models `memcpy(out, src + off, n)`: the `n` bytes read from `src` at `off`;
`none` when the read leaves `src`. -/
def memcpyFrom (src : List Nat) (off n : Nat) : Option (List Nat) :=
  if off + n ≤ src.length then some ((src.drop off).take n) else none

/-- Models `memcpy(dst + off, src, n)`: `dst` after the copy; `none` when the read
leaves `src` or the write leaves `dst`. -/
def memcpyInto (dst : List Nat) (off : Nat) (src : List Nat) (n : Nat) : Option (List Nat) :=
  if n ≤ src.length ∧ off + n ≤ dst.length then
    some (dst.take off ++ src.take n ++ dst.drop (off + n))
  else none

/-- The bytes of the object a `pValue` points to. The service declaration is a
`gattAttrType_t` struct, whose byte image is not modelled. -/
def State.load (s : State) : ValueRef → Option (List Nat)
  | .ps_PINVal => some s.ps_PINVal
  | .ps_PINProps => some [s.ps_PINProps]
  | .GPIOServiceDec1 => none

/-- Replace the bytes of the object a `pValue` points to. The service
declaration is `CONST` and cannot be written. -/
def State.store (s : State) : ValueRef → List Nat → Option State
  | .ps_PINVal, v => some { s with ps_PINVal := v }
  | .ps_PINProps, [b] => some { s with ps_PINProps := b }
  | _, _ => none

/-! ## The attribute table -/

/-- The table `static gattAttribute_t MyGPIO_ServiceAttrTbl[]`. -/
def MyGPIO_ServiceAttrTbl : List gattAttribute_t :=
  [ -- PIN_Service Service Declaration
    { type := { len := ATT_BT_UUID_SIZE, uuid := primaryServiceUUID }
      permissions := GATT_PERMIT_READ
      handle := 0
      pValue := .GPIOServiceDec1 },
    -- PIN Characteristic Declaration
    { type := { len := ATT_BT_UUID_SIZE, uuid := characterUUID }
      permissions := GATT_PERMIT_READ
      handle := 0
      pValue := .ps_PINProps },
    -- PIN Characteristic Value
    { type := { len := ATT_UUID_SIZE, uuid := ps_PINCHARAUUID }
      permissions := GATT_PERMIT_READ ||| GATT_PERMIT_WRITE ||| GATT_PERMIT_WRITE
      handle := 0
      pValue := .ps_PINVal } ]

/-- Models `*(uint16_t *)uuid` on the little-endian target: the first two bytes, low
byte first; `none` when `uuid` has fewer than two bytes. -/
def readUInt16 : List Nat → Option Nat
  | b0 :: b1 :: _ => some (b0 + 256 * b1)
  | _ => none

/-- Models `!memcmp(uuid, ps_PINCHARAUUID, n)`: the first `n` bytes agree. -/
def memcmpEq (uuid ref : List Nat) (n : Nat) : Bool :=
  decide (n ≤ uuid.length ∧ uuid.take n = ref.take n)

/-- The branch of `MyGPIO_Service_findCharParamId` taken for the row `a`:
`true` when `a` is a Client Characteristic Configuration Descriptor. -/
def isClientCharCfg (a : gattAttribute_t) : Bool :=
  decide (ATT_BT_UUID_SIZE = a.type.len ∧
    some GATT_CLIENT_CHAR_CFG_UUID = readUInt16 a.type.uuid)

/-- The second test of `MyGPIO_Service_findCharParamId`: the row carries the
128-bit PIN identifier. -/
def isPinChar (a : gattAttribute_t) : Bool :=
  decide (ATT_UUID_SIZE = a.type.len) && memcmpEq a.type.uuid ps_PINCHARAUUID a.type.len

/-- Function `static uint8_t MyGPIO_Service_findCharParamId(gattAttribute_t *pAttr)`,
with `pAttr = &tbl[i]`. `none` when `pAttr` is not a row of `tbl` (this
includes the step `pAttr - 1` taken from row 0). -/
def MyGPIO_Service_findCharParamId (tbl : List gattAttribute_t) : Nat → Option Nat
  | 0 =>
    match tbl[0]? with
    | none => none
    | some a =>
      if isClientCharCfg a then none
      else if isPinChar a then some PS_PIN_ID
      else some 0xFF
  | i + 1 =>
    match tbl[i + 1]? with
    | none => none
    | some a =>
      if isClientCharCfg a then MyGPIO_Service_findCharParamId tbl i
      else if isPinChar a then some PS_PIN_ID
      else some 0xFF

/-! ## Public functions -/

/-- Function `bStatus_t MyGPIOService_RegisterAppCBs( MyGPIOServiceCBs_t *appCallbacks )` -/
def MyGPIOService_RegisterAppCBs (s : State) (appCallbacks : Option MyGPIOServiceCBs_t) :
    Nat × State :=
  match appCallbacks with
  | some cbs => (SUCCESS, { s with pAppCBs := some cbs })
  | none => (FAILURE, s)

/-- Function `bStatus_t MyGPIOService_SetParameter( uint8_t param, uint16_t len, void *value )`:
the returned status and the state after the call. -/
def MyGPIOService_SetParameter (s : State) (param len : Nat) (value : List Nat) :
    Option (Nat × State) :=
  if param = PS_PIN_ID then
    let valMinLen := PS_PIN_LEN_MIN
    let valMaxLen := PS_PIN_LEN
    -- Check bounds, update value
    if len ≤ valMaxLen ∧ len ≥ valMinLen then
      match memcpyInto s.ps_PINVal 0 value len with
      | none => none
      | some buf => some (SUCCESS, { s with ps_PINVal := buf, ps_PINValLen := len })
    else
      some (bleInvalidRange, s)
  else
    some (INVALIDPARAMETER, s)

/-- What `MyGPIOService_GetParameter` hands back: the status, the value left
in `*len`, and the bytes copied to `value`. -/
structure GetResult where
  status : Nat
  len : Nat
  value : List Nat
deriving DecidableEq, Repr

/-- Function `bStatus_t MyGPIOService_GetParameter( uint8_t param, uint16_t *len, void *value )`.
The `case PS_PIN_ID:` block has no `break`, so control runs on into
`default:`, which sets `ret = INVALIDPARAMETER`; `ret` is `SUCCESS` on no
path that reaches `return ret`. -/
def MyGPIOService_GetParameter (s : State) (param len : Nat) : Option GetResult :=
  if param = PS_PIN_ID then
    -- case PS_PIN_ID:
    let len1 := MIN len s.ps_PINValLen
    match memcpyFrom s.ps_PINVal 0 len1 with
    | none => none
    | some out =>
      -- no break: the statements of default: follow
      some { status := INVALIDPARAMETER, len := len1, value := out }
  else
    -- default:
    some { status := INVALIDPARAMETER, len := len, value := [] }

/-! ## Attribute callbacks -/

/-- What `MyGPIO_Service_ReadAttrCB` hands back: the status, the value stored
to `*pLen` (`none` when `*pLen` is not written) and the bytes copied to
`pValue`. -/
structure ReadResult where
  status : Nat
  pLen : Option Nat
  pValue : List Nat
deriving DecidableEq, Repr

/-- Function `static bStatus_t MyGPIO_Service_ReadAttrCB( uint16_t connHandle,
gattAttribute_t *pAttr, uint8_t *pValue, uint16_t *pLen, uint16_t offset,
uint16_t maxLen, uint8_t method )`, with `pAttr = &tbl[pAttr]`. The state is
only read. -/
def MyGPIO_Service_ReadAttrCB (tbl : List gattAttribute_t) (s : State)
    (connHandle pAttr offset maxLen method : Nat) : Option ReadResult :=
  let _ := connHandle
  let _ := method
  -- Find settings for the characteristic to be read.
  match MyGPIO_Service_findCharParamId tbl pAttr with
  | none => none
  | some paramID =>
    if paramID = PS_PIN_ID then
      let valueLen := s.ps_PINValLen
      -- Check bounds and return the value
      if offset > valueLen then
        some { status := ATT_ERR_INVALID_OFFSET, pLen := none, pValue := [] }
      else
        let n := MIN maxLen (valueLen - offset)
        match tbl[pAttr]? with
        | none => none
        | some a =>
          match s.load a.pValue with
          | none => none
          | some src =>
            match memcpyFrom src offset n with
            | none => none
            | some out => some { status := SUCCESS, pLen := some n, pValue := out }
    else
      some { status := ATT_ERR_ATTR_NOT_FOUND, pLen := none, pValue := [] }

/-- What `MyGPIO_Service_WriteAttrCB` hands back: the status, the state after
the call and the listener invocations made during it, in order. -/
structure WriteResult where
  status : Nat
  state : State
  calls : List ChangeCall
deriving DecidableEq, Repr

/-- The tail of `MyGPIO_Service_WriteAttrCB`:
`if ( changeParamID != 0xFF ) if ( pAppCBs && pAppCBs->pfnChangeCb ) pAppCBs->pfnChangeCb( ... )`. -/
def notifyChange (s : State) (changeParamID connHandle paramID : Nat) (pValue : List Nat)
    (len offset : Nat) : List ChangeCall :=
  if changeParamID ≠ 0xFF then
    match s.pAppCBs with
    | none => []
    | some cbs =>
      match cbs.pfnChangeCb with
      | none => []
      | some f =>
        [{ fn := f, connHandle := connHandle, svcUuid := MYGPIO_SERVICE_SERV_UUID,
           paramID := paramID, pValue := pValue, len := (len + offset) % 65536 }]
  else []

/-- Function `static bStatus_t MyGPIO_Service_WriteAttrCB( uint16_t connHandle,
gattAttribute_t *pAttr, uint8_t *pValue, uint16_t len, uint16_t offset,
uint8_t method )`, with `pAttr = &tbl[pAttr]` and `pValue` the bytes the
caller's buffer holds. -/
def MyGPIO_Service_WriteAttrCB (tbl : List gattAttribute_t) (s : State)
    (connHandle pAttr : Nat) (pValue : List Nat) (len offset method : Nat) :
    Option WriteResult :=
  -- Find settings for the characteristic to be written.
  match MyGPIO_Service_findCharParamId tbl pAttr with
  | none => none
  | some paramID =>
    if paramID = PS_PIN_ID then
      let writeLenMin := PS_PIN_LEN_MIN
      let writeLenMax := PS_PIN_LEN
      -- Check whether the length is within bounds.
      if offset ≥ writeLenMax then
        some { status := ATT_ERR_INVALID_OFFSET, state := s,
               calls := notifyChange s 0xFF connHandle paramID pValue len offset }
      else if offset + len > writeLenMax then
        some { status := ATT_ERR_INVALID_VALUE_SIZE, state := s,
               calls := notifyChange s 0xFF connHandle paramID pValue len offset }
      else if offset + len < writeLenMin ∧
          (method = ATT_EXECUTE_WRITE_REQ ∨ method = ATT_WRITE_REQ) then
        some { status := ATT_ERR_INVALID_VALUE_SIZE, state := s,
               calls := notifyChange s 0xFF connHandle paramID pValue len offset }
      else
        match tbl[pAttr]? with
        | none => none
        | some a =>
          match s.load a.pValue with
          | none => none
          | some dst =>
            match memcpyInto dst offset pValue len with
            | none => none
            | some dst1 =>
              match s.store a.pValue dst1 with
              | none => none
              | some s1 =>
                if offset + len ≥ writeLenMin then
                  let changeParamID := paramID
                  let s2 := { s1 with ps_PINValLen := (offset + len) % 65536 }
                  some { status := SUCCESS, state := s2,
                         calls := notifyChange s2 changeParamID connHandle paramID pValue
                                    len offset }
                else
                  some { status := SUCCESS, state := s1,
                         calls := notifyChange s1 0xFF connHandle paramID pValue len offset }
    else
      some { status := ATT_ERR_ATTR_NOT_FOUND, state := s, calls := [] }



/-! ## Sequences of calls -/

/-- One call into the service: the function called and its arguments. The
attribute callbacks are registered for `MyGPIO_ServiceAttrTbl` only
(`MyGPIOService_AddService`), so their `pAttr` is a row index of that table. -/
inductive Call where
  | RegisterAppCBs (appCallbacks : Option MyGPIOServiceCBs_t)
  | SetParameter (param len : Nat) (value : List Nat)
  | GetParameter (param len : Nat)
  | ReadAttrCB (connHandle pAttr offset maxLen method : Nat)
  | WriteAttrCB (connHandle pAttr : Nat) (pValue : List Nat) (len offset method : Nat)
deriving DecidableEq, Repr

/-- The file-scope variables after a call; `none` when the call leaves defined
behaviour. `MyGPIOService_GetParameter` and `MyGPIO_Service_ReadAttrCB` contain
no assignment to a file-scope variable (they write only through the caller's
`len` / `pLen` and `value` / `pValue`), so a call of theirs that returns leaves
the state as it was. -/
def State.after (s : State) : Call → Option State
  | .RegisterAppCBs appCallbacks => some (MyGPIOService_RegisterAppCBs s appCallbacks).2
  | .SetParameter param len value =>
    (MyGPIOService_SetParameter s param len value).map (fun r => r.2)
  | .GetParameter param len =>
    (MyGPIOService_GetParameter s param len).map (fun _ => s)
  | .ReadAttrCB connHandle pAttr offset maxLen method =>
    (MyGPIO_Service_ReadAttrCB MyGPIO_ServiceAttrTbl s connHandle pAttr offset maxLen
      method).map (fun _ => s)
  | .WriteAttrCB connHandle pAttr pValue len offset method =>
    (MyGPIO_Service_WriteAttrCB MyGPIO_ServiceAttrTbl s connHandle pAttr pValue len offset
      method).map (fun r => r.state)

/-- The state after a sequence of calls, made in order. -/
def State.run (s : State) : List Call → Option State
  | [] => some s
  | c :: cs =>
    match s.after c with
    | none => none
    | some s1 => s1.run cs

/-- A Client Characteristic Configuration Descriptor row, as a table that
carries one would declare it. Resolution looks at `type` only. -/
def clientCharCfgRow : gattAttribute_t :=
  { type := { len := ATT_BT_UUID_SIZE,
              uuid := [LO_UINT16 GATT_CLIENT_CHAR_CFG_UUID, HI_UINT16 GATT_CLIENT_CHAR_CFG_UUID] }
    permissions := GATT_PERMIT_READ ||| GATT_PERMIT_WRITE
    handle := 0
    pValue := .ps_PINProps }

/-- The PIN characteristic value row of `MyGPIO_ServiceAttrTbl`. -/
def pinValueRow : gattAttribute_t :=
  { type := { len := ATT_UUID_SIZE, uuid := ps_PINCHARAUUID }
    permissions := GATT_PERMIT_READ ||| GATT_PERMIT_WRITE ||| GATT_PERMIT_WRITE
    handle := 0
    pValue := .ps_PINVal }

/-- A table in which the value row is followed by two descriptor rows. -/
def twoDescriptorTbl : List gattAttribute_t :=
  [pinValueRow, clientCharCfgRow, clientCharCfgRow]

/-! ## Lemmas on the table and on `memcpy` -/

/-- Row 2 of the table, the characteristic value, resolves to `PS_PIN_ID`. -/
theorem findCharParamId_tbl_two :
    MyGPIO_Service_findCharParamId MyGPIO_ServiceAttrTbl 2 = some PS_PIN_ID := by decide

/-- Row 2 is the only row of `MyGPIO_ServiceAttrTbl` that resolves to `PS_PIN_ID`. -/
theorem findCharParamId_tbl_resolves (pAttr : Nat)
    (h : MyGPIO_Service_findCharParamId MyGPIO_ServiceAttrTbl pAttr = some PS_PIN_ID) :
    pAttr = 2 := by
  match pAttr, h with
  | 0, h => exact absurd h (by decide)
  | 1, h => exact absurd h (by decide)
  | 2, _ => rfl
  | n + 3, h =>
    have hn : MyGPIO_ServiceAttrTbl[n + 3]? = none := by
      simp [MyGPIO_ServiceAttrTbl]
    simp [MyGPIO_Service_findCharParamId, hn] at h

/-- Row 2 of the table; its value storage is `ps_PINVal`. -/
theorem tbl_two : MyGPIO_ServiceAttrTbl[2]? = some
    { type := { len := ATT_UUID_SIZE, uuid := ps_PINCHARAUUID }
      permissions := GATT_PERMIT_READ ||| GATT_PERMIT_WRITE ||| GATT_PERMIT_WRITE
      handle := 0
      pValue := .ps_PINVal } := rfl

/-- A copy into a buffer keeps the size of the buffer. -/
theorem memcpyInto_length {dst src d : List Nat} {off n : Nat}
    (h : memcpyInto dst off src n = some d) : d.length = dst.length := by
  unfold memcpyInto at h
  split at h
  · rename_i hb
    cases h
    simp
    omega
  · cases h

/-- After a copy, the bytes inside the written range are the source bytes. -/
theorem memcpyInto_getElem?_inside {dst src d : List Nat} {off n : Nat}
    (h : memcpyInto dst off src n = some d) (i : Nat) (h1 : off ≤ i) (h2 : i < off + n) :
    d[i]? = src[i - off]? := by
  unfold memcpyInto at h
  split at h
  · rename_i hb
    cases h
    have hl : (List.take off dst).length = off := by simp; omega
    rw [List.append_assoc, List.getElem?_append_right (by omega), hl,
      List.getElem?_append_left (by simp; omega), List.getElem?_take]
    simp; omega
  · cases h

/-- After a copy, the bytes outside the written range are the old ones. -/
theorem memcpyInto_getElem?_outside {dst src d : List Nat} {off n : Nat}
    (h : memcpyInto dst off src n = some d) (i : Nat) (h1 : i < off ∨ off + n ≤ i) :
    d[i]? = dst[i]? := by
  unfold memcpyInto at h
  split at h
  · rename_i hb
    cases h
    have hl : (List.take off dst).length = off := by simp; omega
    rcases h1 with h1 | h1
    · rw [List.append_assoc, List.getElem?_append_left (by omega), List.getElem?_take]
      simp; omega
    · rw [List.append_assoc, List.getElem?_append_right (by omega), hl,
        List.getElem?_append_right (by simp; omega)]
      simp
      congr 1
      omega
  · cases h


/-- A read that stays inside its source returns the slice. -/
theorem memcpyFrom_eq {src : List Nat} {off n : Nat} (h : off + n ≤ src.length) :
    memcpyFrom src off n = some ((src.drop off).take n) := by
  simp [memcpyFrom, h]

/-- The macro `MIN` is the minimum. -/
theorem MIN_eq_min (n m : Nat) : MIN n m = min n m := by
  unfold MIN
  split <;> omega

/-! ## Parameter accessors -/

/-- The fall-through of `MyGPIOService_GetParameter`: whatever the state and the
arguments, a call that returns does not return `SUCCESS`. -/
theorem GetParameter_status (s : State) (param len : Nat) (r : GetResult)
    (h : MyGPIOService_GetParameter s param len = some r) : r.status = INVALIDPARAMETER := by
  unfold MyGPIOService_GetParameter at h
  split at h
  · dsimp only at h
    split at h
    · cases h
    · cases h; rfl
  · cases h; rfl

/-- For the known parameter the copy itself is the bounded one: the reported
length is `min len curLen` and the bytes are that prefix of the buffer. -/
theorem GetParameter_copy (s : State) (len : Nat) (hc : s.ps_PINValLen ≤ s.ps_PINVal.length) :
    MyGPIOService_GetParameter s PS_PIN_ID len =
      some { status := INVALIDPARAMETER, len := min len s.ps_PINValLen,
             value := s.ps_PINVal.take (min len s.ps_PINValLen) } := by
  have hb : 0 + min len s.ps_PINValLen ≤ s.ps_PINVal.length := by omega
  simp [MyGPIOService_GetParameter, MIN_eq_min, memcpyFrom_eq hb]

/-- C1 (code defect): from the initial state, `MyGPIOService_SetParameter(PS_PIN_ID,
1, {0x01})` returns `SUCCESS`, and the following `MyGPIOService_GetParameter(
PS_PIN_ID, &len = 1, out)` copies the byte `0x01` and reports length 1, but its
status is `INVALIDPARAMETER`, not `SUCCESS`. -/
theorem C1_set_then_get_status :
    MyGPIOService_SetParameter State.init PS_PIN_ID 1 [0x01] =
        some (SUCCESS, { State.init with ps_PINVal := [0x01], ps_PINValLen := 1 }) ∧
      MyGPIOService_GetParameter
          { State.init with ps_PINVal := [0x01], ps_PINValLen := 1 } PS_PIN_ID 1 =
        some { status := INVALIDPARAMETER, len := 1, value := [0x01] } ∧
      INVALIDPARAMETER ≠ SUCCESS := by
  decide

/-- C2 (code defect): in the initial state `MyGPIOService_GetParameter(PS_PIN_ID,
&len = 1, out)` reports length `min(1, curLen) = 1` and copies the stored byte,
but returns `INVALIDPARAMETER`, not `SUCCESS`. -/
theorem C2_get_known_parameter_status :
    MyGPIOService_GetParameter State.init PS_PIN_ID 1 =
        some { status := INVALIDPARAMETER, len := 1, value := [0x00] } ∧
      INVALIDPARAMETER ≠ SUCCESS := by
  decide

/-- C3: for `param = PS_PIN_ID` and a length below `PS_PIN_LEN_MIN` or above
`PS_PIN_LEN`, `MyGPIOService_SetParameter` returns `bleInvalidRange` and the
state after the call is the state before it. -/
theorem SetParameter_out_of_range (s : State) (len : Nat) (value : List Nat)
    (h : len < PS_PIN_LEN_MIN ∨ PS_PIN_LEN < len) :
    MyGPIOService_SetParameter s PS_PIN_ID len value = some (bleInvalidRange, s) := by
  have hn : ¬ (len ≤ PS_PIN_LEN ∧ len ≥ PS_PIN_LEN_MIN) := by omega
  simp only [MyGPIOService_SetParameter, if_true, if_neg hn]

/-- Witness for C3: length 2 on the initial state. -/
theorem SetParameter_out_of_range_witness :
    (2 < PS_PIN_LEN_MIN ∨ PS_PIN_LEN < 2) ∧
      MyGPIOService_SetParameter State.init PS_PIN_ID 2 [7, 8] =
        some (bleInvalidRange, State.init) :=
  ⟨by decide, SetParameter_out_of_range State.init 2 [7, 8] (by decide)⟩

/-- C4: with a buffer of `PS_PIN_LEN` bytes and `value` holding at least `len`
bytes, `MyGPIOService_SetParameter` returns; its status is `SUCCESS` exactly
when `param = PS_PIN_ID` and `PS_PIN_LEN_MIN ≤ len ≤ PS_PIN_LEN`; an unknown
`param` gives `INVALIDPARAMETER`; and on `SUCCESS` the first `len` bytes of the
buffer are the supplied ones, the bytes from index `len` on are unchanged and
`ps_PINValLen = len`. -/
theorem SetParameter_success (s : State) (param len : Nat) (value : List Nat)
    (hs : s.WF) (hv : len ≤ value.length) :
    ∃ r s1, MyGPIOService_SetParameter s param len value = some (r, s1) ∧
      (r = SUCCESS ↔ (param = PS_PIN_ID ∧ PS_PIN_LEN_MIN ≤ len ∧ len ≤ PS_PIN_LEN)) ∧
      (param ≠ PS_PIN_ID → r = INVALIDPARAMETER) ∧
      (r = SUCCESS →
        s1.ps_PINVal.take len = value.take len ∧
        s1.ps_PINVal.drop len = s.ps_PINVal.drop len ∧
        s1.ps_PINVal.length = s.ps_PINVal.length ∧
        s1.ps_PINValLen = len) := by
  unfold State.WF at hs
  by_cases hp : param = PS_PIN_ID
  · by_cases hr : len ≤ PS_PIN_LEN ∧ len ≥ PS_PIN_LEN_MIN
    · have hm : memcpyInto s.ps_PINVal 0 value len =
          some (value.take len ++ s.ps_PINVal.drop len) := by
        have hd : len ≤ s.ps_PINVal.length := by omega
        simp [memcpyInto, hv, hd]
      refine ⟨SUCCESS, ⟨s.pAppCBs, s.ps_PINProps, value.take len ++ s.ps_PINVal.drop len, len⟩,
        ?_, ?_, ?_, ?_⟩
      · simp only [MyGPIOService_SetParameter, if_pos hp, if_pos hr, hm]
      · simp [hp, hr.1, hr.2]
      · intro h; exact absurd hp h
      · intro _
        have hl : (value.take len).length = len := by simp; omega
        refine ⟨?_, ?_, ?_, rfl⟩
        · simp [List.take_append_eq_append_take, hl]
        · simp [List.drop_append_eq_append_drop, hl]
        · simp; omega
    · refine ⟨bleInvalidRange, s, ?_, ?_, ?_, ?_⟩
      · simp only [MyGPIOService_SetParameter, if_pos hp, if_neg hr]
      · constructor
        · intro h; exact absurd h (by decide)
        · intro h; exact absurd ⟨h.2.2, h.2.1⟩ hr
      · intro h; exact absurd hp h
      · intro h; exact absurd h (by decide)
  · refine ⟨INVALIDPARAMETER, s, ?_, ?_, ?_, ?_⟩
    · simp only [MyGPIOService_SetParameter, if_neg hp]
    · constructor
      · intro h; exact absurd h (by decide)
      · intro h; exact absurd h.1 hp
    · intro _; rfl
    · intro h; exact absurd h (by decide)

/-- Witness for C4: one byte set on the initial state. -/
theorem SetParameter_success_witness :
    State.init.WF ∧ 1 ≤ [0x07].length ∧
      ∃ r s1, MyGPIOService_SetParameter State.init PS_PIN_ID 1 [0x07] = some (r, s1) ∧
        (r = SUCCESS ↔ (PS_PIN_ID = PS_PIN_ID ∧ PS_PIN_LEN_MIN ≤ 1 ∧ 1 ≤ PS_PIN_LEN)) ∧
        (PS_PIN_ID ≠ PS_PIN_ID → r = INVALIDPARAMETER) ∧
        (r = SUCCESS →
          s1.ps_PINVal.take 1 = [0x07].take 1 ∧
          s1.ps_PINVal.drop 1 = State.init.ps_PINVal.drop 1 ∧
          s1.ps_PINVal.length = State.init.ps_PINVal.length ∧
          s1.ps_PINValLen = 1) :=
  ⟨by decide, by decide,
    SetParameter_success State.init PS_PIN_ID 1 [0x07] (by decide) (by decide)⟩

/-! ## Read callback -/

/-- The in-range branch of `MyGPIO_Service_ReadAttrCB` on the value row, as an
equation. -/
theorem ReadAttrCB_in_range (s : State) (connHandle pAttr offset maxLen method : Nat)
    (hres : MyGPIO_Service_findCharParamId MyGPIO_ServiceAttrTbl pAttr = some PS_PIN_ID)
    (hs : s.WF) (hc : s.ps_PINValLen ≤ PS_PIN_LEN) (ho : offset ≤ s.ps_PINValLen) :
    MyGPIO_Service_ReadAttrCB MyGPIO_ServiceAttrTbl s connHandle pAttr offset maxLen method =
      some { status := SUCCESS, pLen := some (min maxLen (s.ps_PINValLen - offset)),
             pValue := (s.ps_PINVal.drop offset).take (min maxLen (s.ps_PINValLen - offset)) } := by
  obtain rfl := findCharParamId_tbl_resolves pAttr hres
  unfold State.WF at hs
  have hb : offset + min maxLen (s.ps_PINValLen - offset) ≤ s.ps_PINVal.length := by omega
  simp only [MyGPIO_Service_ReadAttrCB, hres, if_true, if_neg (Nat.not_lt.mpr ho), tbl_two,
    State.load, MIN_eq_min, memcpyFrom_eq hb]

/-- C5: for a row that resolves to the parameter, a buffer of `PS_PIN_LEN`
bytes with `ps_PINValLen ≤ PS_PIN_LEN`, and `offset ≤ ps_PINValLen`,
`MyGPIO_Service_ReadAttrCB` returns `SUCCESS`, stores
`min(maxLen, ps_PINValLen - offset)` to `*pLen`, and copies exactly that many
bytes, byte `k` of the output being byte `offset + k` of `ps_PINVal`. -/
theorem ReadAttrCB_slice (s : State) (connHandle pAttr offset maxLen method : Nat)
    (hres : MyGPIO_Service_findCharParamId MyGPIO_ServiceAttrTbl pAttr = some PS_PIN_ID)
    (hs : s.WF) (hc : s.ps_PINValLen ≤ PS_PIN_LEN) (ho : offset ≤ s.ps_PINValLen) :
    ∃ out, MyGPIO_Service_ReadAttrCB MyGPIO_ServiceAttrTbl s connHandle pAttr offset maxLen
          method =
        some { status := SUCCESS, pLen := some (min maxLen (s.ps_PINValLen - offset)),
               pValue := out } ∧
      out.length = min maxLen (s.ps_PINValLen - offset) ∧
      ∀ k, k < min maxLen (s.ps_PINValLen - offset) → out[k]? = s.ps_PINVal[offset + k]? := by
  refine ⟨(s.ps_PINVal.drop offset).take (min maxLen (s.ps_PINValLen - offset)),
    ReadAttrCB_in_range s connHandle pAttr offset maxLen method hres hs hc ho, ?_, ?_⟩
  · unfold State.WF at hs
    simp
    omega
  · intro k hk
    rw [List.getElem?_take]
    simp [hk]

/-- Witness for C5: the value row read at offset 0 in the initial state. -/
theorem ReadAttrCB_slice_witness :
    ∃ out, MyGPIO_Service_ReadAttrCB MyGPIO_ServiceAttrTbl State.init 0 2 0 5 0 =
        some { status := SUCCESS, pLen := some (min 5 (State.init.ps_PINValLen - 0)),
               pValue := out } ∧
      out.length = min 5 (State.init.ps_PINValLen - 0) ∧
      ∀ k, k < min 5 (State.init.ps_PINValLen - 0) →
        out[k]? = State.init.ps_PINVal[0 + k]? :=
  ReadAttrCB_slice State.init 0 2 0 5 0 (by decide) (by decide) (by decide) (by decide)

/-- C6: for a row that resolves to the parameter and a buffer of `PS_PIN_LEN`
bytes with `ps_PINValLen ≤ PS_PIN_LEN`, `MyGPIO_Service_ReadAttrCB` returns,
its status is `ATT_ERR_INVALID_OFFSET` exactly when `offset > ps_PINValLen`,
and for `offset = ps_PINValLen` it is `SUCCESS` with length 0 and no bytes. -/
theorem ReadAttrCB_invalid_offset_iff (s : State)
    (connHandle pAttr offset maxLen method : Nat)
    (hres : MyGPIO_Service_findCharParamId MyGPIO_ServiceAttrTbl pAttr = some PS_PIN_ID)
    (hs : s.WF) (hc : s.ps_PINValLen ≤ PS_PIN_LEN) :
    ∃ r, MyGPIO_Service_ReadAttrCB MyGPIO_ServiceAttrTbl s connHandle pAttr offset maxLen
          method = some r ∧
      (r.status = ATT_ERR_INVALID_OFFSET ↔ s.ps_PINValLen < offset) ∧
      (offset = s.ps_PINValLen →
        r = { status := SUCCESS, pLen := some 0, pValue := [] }) := by
  by_cases ho : offset ≤ s.ps_PINValLen
  · refine ⟨_, ReadAttrCB_in_range s connHandle pAttr offset maxLen method hres hs hc ho,
      ?_, ?_⟩
    · constructor
      · intro h
        change SUCCESS = ATT_ERR_INVALID_OFFSET at h
        exact absurd h (by decide)
      · intro h; omega
    · intro he
      have h0 : min maxLen (s.ps_PINValLen - offset) = 0 := by omega
      rw [h0, List.take_zero]
  · have ho1 : offset > s.ps_PINValLen := by omega
    refine ⟨{ status := ATT_ERR_INVALID_OFFSET, pLen := none, pValue := [] }, ?_, ?_, ?_⟩
    · simp only [MyGPIO_Service_ReadAttrCB, hres, if_true, if_pos ho1]
    · constructor
      · intro _; exact ho1
      · intro _; rfl
    · intro he; omega

/-- Witness for C6: the value row read at offset 2 in the initial state. -/
theorem ReadAttrCB_invalid_offset_iff_witness :
    ∃ r, MyGPIO_Service_ReadAttrCB MyGPIO_ServiceAttrTbl State.init 0 2 2 1 0 = some r ∧
      (r.status = ATT_ERR_INVALID_OFFSET ↔ State.init.ps_PINValLen < 2) ∧
      (2 = State.init.ps_PINValLen →
        r = { status := SUCCESS, pLen := some 0, pValue := [] }) :=
  ReadAttrCB_invalid_offset_iff State.init 0 2 2 1 0 (by decide) (by decide) (by decide)

/-! ## Write callback -/

/-- C7: for a row that resolves to the parameter and `offset ≥ PS_PIN_LEN`,
whatever `len` and `method` are, `MyGPIO_Service_WriteAttrCB` returns
`ATT_ERR_INVALID_OFFSET`, the state after the call is the state before it, and
no listener is called. -/
theorem WriteAttrCB_offset_bound (s : State) (connHandle pAttr : Nat) (pValue : List Nat)
    (len offset method : Nat)
    (hres : MyGPIO_Service_findCharParamId MyGPIO_ServiceAttrTbl pAttr = some PS_PIN_ID)
    (ho : PS_PIN_LEN ≤ offset) :
    MyGPIO_Service_WriteAttrCB MyGPIO_ServiceAttrTbl s connHandle pAttr pValue len offset
        method =
      some { status := ATT_ERR_INVALID_OFFSET, state := s, calls := [] } := by
  have h1 : offset ≥ PS_PIN_LEN := ho
  simp only [MyGPIO_Service_WriteAttrCB, hres, if_true, if_pos h1, notifyChange, ne_eq,
    not_true_eq_false, if_false]

/-- Witness for C7: a write request at offset 1 on the value row. -/
theorem WriteAttrCB_offset_bound_witness :
    PS_PIN_LEN ≤ 1 ∧
      MyGPIO_Service_WriteAttrCB MyGPIO_ServiceAttrTbl State.init 0 2 [0x01] 1 1
          ATT_WRITE_REQ =
        some { status := ATT_ERR_INVALID_OFFSET, state := State.init, calls := [] } :=
  ⟨by decide,
    WriteAttrCB_offset_bound State.init 0 2 [0x01] 1 1 ATT_WRITE_REQ (by decide) (by decide)⟩

/-- C8: for a row that resolves to the parameter, `offset < PS_PIN_LEN` and
`offset + len > PS_PIN_LEN`, whatever `method` is, `MyGPIO_Service_WriteAttrCB`
returns `ATT_ERR_INVALID_VALUE_SIZE`, the state after the call is the state
before it, and no listener is called. -/
theorem WriteAttrCB_capacity_bound (s : State) (connHandle pAttr : Nat) (pValue : List Nat)
    (len offset method : Nat)
    (hres : MyGPIO_Service_findCharParamId MyGPIO_ServiceAttrTbl pAttr = some PS_PIN_ID)
    (ho : offset < PS_PIN_LEN) (hl : PS_PIN_LEN < offset + len) :
    MyGPIO_Service_WriteAttrCB MyGPIO_ServiceAttrTbl s connHandle pAttr pValue len offset
        method =
      some { status := ATT_ERR_INVALID_VALUE_SIZE, state := s, calls := [] } := by
  have h1 : ¬ offset ≥ PS_PIN_LEN := by omega
  have h2 : offset + len > PS_PIN_LEN := hl
  simp only [MyGPIO_Service_WriteAttrCB, hres, if_true, if_neg h1, if_pos h2, notifyChange,
    ne_eq, not_true_eq_false, if_false]

/-- Witness for C8: a write request of two bytes at offset 0 on the value row. -/
theorem WriteAttrCB_capacity_bound_witness :
    0 < PS_PIN_LEN ∧ PS_PIN_LEN < 0 + 2 ∧
      MyGPIO_Service_WriteAttrCB MyGPIO_ServiceAttrTbl State.init 0 2 [0x01, 0x02] 2 0
          ATT_WRITE_REQ =
        some { status := ATT_ERR_INVALID_VALUE_SIZE, state := State.init, calls := [] } :=
  ⟨by decide, by decide,
    WriteAttrCB_capacity_bound State.init 0 2 [0x01, 0x02] 2 0 ATT_WRITE_REQ (by decide)
      (by decide) (by decide)⟩

/-- C9 as stated fails: a write command (`ATT_WRITE_CMD`) of `len = 0` at
`offset = 0` on the value row satisfies `offset < PS_PIN_LEN`,
`offset + len ≤ PS_PIN_LEN` and `offset + len < PS_PIN_LEN_MIN`, and
`MyGPIO_Service_WriteAttrCB` returns `SUCCESS`, not
`ATT_ERR_INVALID_VALUE_SIZE`. -/
theorem WriteAttrCB_write_command_below_min :
    MyGPIO_Service_findCharParamId MyGPIO_ServiceAttrTbl 2 = some PS_PIN_ID ∧
      0 < PS_PIN_LEN ∧ 0 + 0 ≤ PS_PIN_LEN ∧ 0 + 0 < PS_PIN_LEN_MIN ∧
      MyGPIO_Service_WriteAttrCB MyGPIO_ServiceAttrTbl State.init 0 2 [] 0 0 ATT_WRITE_CMD =
        some { status := SUCCESS, state := State.init, calls := [] } ∧
      SUCCESS ≠ ATT_ERR_INVALID_VALUE_SIZE := by
  decide

/-- C9 (amended): for a row that resolves to the parameter, `offset < PS_PIN_LEN`,
`offset + len ≤ PS_PIN_LEN` and `offset + len < PS_PIN_LEN_MIN`, a write whose
method is a write request (`ATT_WRITE_REQ`) or an execute write request
(`ATT_EXECUTE_WRITE_REQ`) returns `ATT_ERR_INVALID_VALUE_SIZE`, the state after
the call is the state before it, and no listener is called. -/
theorem WriteAttrCB_atomic_below_min (s : State) (connHandle pAttr : Nat)
    (pValue : List Nat) (len offset method : Nat)
    (hres : MyGPIO_Service_findCharParamId MyGPIO_ServiceAttrTbl pAttr = some PS_PIN_ID)
    (ho : offset < PS_PIN_LEN) (hl : offset + len ≤ PS_PIN_LEN)
    (hmin : offset + len < PS_PIN_LEN_MIN)
    (hm : method = ATT_WRITE_REQ ∨ method = ATT_EXECUTE_WRITE_REQ) :
    MyGPIO_Service_WriteAttrCB MyGPIO_ServiceAttrTbl s connHandle pAttr pValue len offset
        method =
      some { status := ATT_ERR_INVALID_VALUE_SIZE, state := s, calls := [] } := by
  have h1 : ¬ offset ≥ PS_PIN_LEN := by omega
  have h2 : ¬ offset + len > PS_PIN_LEN := by omega
  have h3 : offset + len < PS_PIN_LEN_MIN ∧
      (method = ATT_EXECUTE_WRITE_REQ ∨ method = ATT_WRITE_REQ) := ⟨hmin, hm.symm⟩
  simp only [MyGPIO_Service_WriteAttrCB, hres, if_true, if_neg h1, if_neg h2, if_pos h3,
    notifyChange, ne_eq, not_true_eq_false, if_false]

/-- Witness for C9 as amended: an execute write request of no bytes at offset 0. -/
theorem WriteAttrCB_atomic_below_min_witness :
    0 < PS_PIN_LEN ∧ 0 + 0 ≤ PS_PIN_LEN ∧ 0 + 0 < PS_PIN_LEN_MIN ∧
      MyGPIO_Service_WriteAttrCB MyGPIO_ServiceAttrTbl State.init 0 2 [] 0 0
          ATT_EXECUTE_WRITE_REQ =
        some { status := ATT_ERR_INVALID_VALUE_SIZE, state := State.init, calls := [] } :=
  ⟨by decide, by decide, by decide,
    WriteAttrCB_atomic_below_min State.init 0 2 [] 0 0 ATT_EXECUTE_WRITE_REQ (by decide)
      (by decide) (by decide) (by decide) (Or.inr rfl)⟩

/-- C10: for a row that resolves to the parameter, a buffer of `PS_PIN_LEN`
bytes, input holding at least `len` bytes, `offset < PS_PIN_LEN` and
`PS_PIN_LEN_MIN ≤ offset + len ≤ PS_PIN_LEN`, whatever `method` is,
`MyGPIO_Service_WriteAttrCB` returns `SUCCESS`; after it the buffer bytes at
indices `offset .. offset + len - 1` are the input bytes, every other buffer
byte is unchanged, the buffer keeps its size, and `ps_PINValLen = offset + len`. -/
theorem WriteAttrCB_committed (s : State) (connHandle pAttr : Nat) (pValue : List Nat)
    (len offset method : Nat)
    (hres : MyGPIO_Service_findCharParamId MyGPIO_ServiceAttrTbl pAttr = some PS_PIN_ID)
    (hs : s.WF) (hv : len ≤ pValue.length)
    (ho : offset < PS_PIN_LEN) (hmin : PS_PIN_LEN_MIN ≤ offset + len)
    (hmax : offset + len ≤ PS_PIN_LEN) :
    ∃ r, MyGPIO_Service_WriteAttrCB MyGPIO_ServiceAttrTbl s connHandle pAttr pValue len
          offset method = some r ∧
      r.status = SUCCESS ∧
      r.state.ps_PINValLen = offset + len ∧
      r.state.ps_PINVal.length = s.ps_PINVal.length ∧
      (∀ i, offset ≤ i → i < offset + len → r.state.ps_PINVal[i]? = pValue[i - offset]?) ∧
      (∀ i, i < offset ∨ offset + len ≤ i → r.state.ps_PINVal[i]? = s.ps_PINVal[i]?) := by
  obtain rfl := findCharParamId_tbl_resolves pAttr hres
  unfold State.WF at hs
  have h1 : ¬ offset ≥ PS_PIN_LEN := by omega
  have h2 : ¬ offset + len > PS_PIN_LEN := by omega
  have h3 : ¬ (offset + len < PS_PIN_LEN_MIN ∧
      (method = ATT_EXECUTE_WRITE_REQ ∨ method = ATT_WRITE_REQ)) := by omega
  have h4 : offset + len ≥ PS_PIN_LEN_MIN := hmin
  have hb : len ≤ pValue.length ∧ offset + len ≤ s.ps_PINVal.length := by omega
  have hm : memcpyInto s.ps_PINVal offset pValue len =
      some (s.ps_PINVal.take offset ++ pValue.take len ++ s.ps_PINVal.drop (offset + len)) := by
    simp only [memcpyInto, if_pos hb]
  have h16 : (offset + len) % 65536 = offset + len := by
    have : PS_PIN_LEN = 1 := rfl
    omega
  have hw : MyGPIO_Service_WriteAttrCB MyGPIO_ServiceAttrTbl s connHandle 2 pValue len offset
      method =
      some { status := SUCCESS,
             state := ⟨s.pAppCBs, s.ps_PINProps,
               s.ps_PINVal.take offset ++ pValue.take len ++ s.ps_PINVal.drop (offset + len),
               offset + len⟩,
             calls := notifyChange ⟨s.pAppCBs, s.ps_PINProps,
               s.ps_PINVal.take offset ++ pValue.take len ++ s.ps_PINVal.drop (offset + len),
               offset + len⟩ PS_PIN_ID connHandle PS_PIN_ID pValue len offset } := by
    simp only [MyGPIO_Service_WriteAttrCB, hres, if_true, if_neg h1, if_neg h2, if_neg h3,
      tbl_two, State.load, hm, State.store, if_pos h4, h16]
  refine ⟨_, hw, rfl, rfl, memcpyInto_length hm, ?_, ?_⟩
  · intro i hi1 hi2
    exact memcpyInto_getElem?_inside hm i hi1 hi2
  · intro i hi
    exact memcpyInto_getElem?_outside hm i hi

/-- Witness for C10: a write command of one byte at offset 0 on the value row. -/
theorem WriteAttrCB_committed_witness :
    ∃ r, MyGPIO_Service_WriteAttrCB MyGPIO_ServiceAttrTbl State.init 0 2 [0x01] 1 0
          ATT_WRITE_CMD = some r ∧
      r.status = SUCCESS ∧
      r.state.ps_PINValLen = 0 + 1 ∧
      r.state.ps_PINVal.length = State.init.ps_PINVal.length ∧
      (∀ i, 0 ≤ i → i < 0 + 1 → r.state.ps_PINVal[i]? = [0x01][i - 0]?) ∧
      (∀ i, i < 0 ∨ 0 + 1 ≤ i → r.state.ps_PINVal[i]? = State.init.ps_PINVal[i]?) :=
  WriteAttrCB_committed State.init 0 2 [0x01] 1 0 ATT_WRITE_CMD (by decide) (by decide)
    (by decide) (by decide) (by decide) (by decide)

/-! ## Shared facts on the write callback -/

/-- On a row that does not resolve to `PS_PIN_ID` the write callback stops at
`default:` of its `switch`. -/
theorem WriteAttrCB_default (tbl : List gattAttribute_t) (s : State) (connHandle pAttr : Nat)
    (pValue : List Nat) (len offset method paramID : Nat)
    (h : MyGPIO_Service_findCharParamId tbl pAttr = some paramID) (hp : paramID ≠ PS_PIN_ID) :
    MyGPIO_Service_WriteAttrCB tbl s connHandle pAttr pValue len offset method =
      some { status := ATT_ERR_ATTR_NOT_FOUND, state := s, calls := [] } := by
  simp only [MyGPIO_Service_WriteAttrCB, h, if_neg hp]

/-- On a row that does not resolve to `PS_PIN_ID` the read callback stops at
`default:` of its `switch`. -/
theorem ReadAttrCB_default (tbl : List gattAttribute_t) (s : State)
    (connHandle pAttr offset maxLen method paramID : Nat)
    (h : MyGPIO_Service_findCharParamId tbl pAttr = some paramID) (hp : paramID ≠ PS_PIN_ID) :
    MyGPIO_Service_ReadAttrCB tbl s connHandle pAttr offset maxLen method =
      some { status := ATT_ERR_ATTR_NOT_FOUND, pLen := none, pValue := [] } := by
  simp only [MyGPIO_Service_ReadAttrCB, h, if_neg hp]

/-- The write callback on the value row of `MyGPIO_ServiceAttrTbl`, branch by
branch. -/
theorem WriteAttrCB_value_row (s : State) (connHandle : Nat) (pValue : List Nat)
    (len offset method : Nat) :
    MyGPIO_Service_WriteAttrCB MyGPIO_ServiceAttrTbl s connHandle 2 pValue len offset method =
      if offset ≥ PS_PIN_LEN then
        some { status := ATT_ERR_INVALID_OFFSET, state := s, calls := [] }
      else if offset + len > PS_PIN_LEN then
        some { status := ATT_ERR_INVALID_VALUE_SIZE, state := s, calls := [] }
      else if offset + len < PS_PIN_LEN_MIN ∧
          (method = ATT_EXECUTE_WRITE_REQ ∨ method = ATT_WRITE_REQ) then
        some { status := ATT_ERR_INVALID_VALUE_SIZE, state := s, calls := [] }
      else
        match memcpyInto s.ps_PINVal offset pValue len with
        | none => none
        | some d =>
          if offset + len ≥ PS_PIN_LEN_MIN then
            some { status := SUCCESS,
                   state := ⟨s.pAppCBs, s.ps_PINProps, d, (offset + len) % 65536⟩,
                   calls := notifyChange ⟨s.pAppCBs, s.ps_PINProps, d, (offset + len) % 65536⟩
                     PS_PIN_ID connHandle PS_PIN_ID pValue len offset }
          else
            some { status := SUCCESS, state := ⟨s.pAppCBs, s.ps_PINProps, d, s.ps_PINValLen⟩,
                   calls := [] } := by
  simp only [MyGPIO_Service_WriteAttrCB, findCharParamId_tbl_two, if_true, tbl_two, State.load,
    notifyChange, ne_eq, not_true_eq_false, if_false]
  split
  · rfl
  · split
    · rfl
    · split
      · rfl
      · cases memcpyInto s.ps_PINVal offset pValue len with
        | none => rfl
        | some d =>
          simp only [State.store]

/-- A row index of `MyGPIO_ServiceAttrTbl` is 0, 1 or 2, and rows 0 and 1
resolve to the invalid id. -/
theorem findCharParamId_tbl_rows (pAttr : Nat) (h : pAttr < MyGPIO_ServiceAttrTbl.length) :
    (pAttr = 2 ∧ MyGPIO_Service_findCharParamId MyGPIO_ServiceAttrTbl pAttr = some PS_PIN_ID) ∨
      MyGPIO_Service_findCharParamId MyGPIO_ServiceAttrTbl pAttr = some 0xFF := by
  have h3 : pAttr < 3 := h
  interval_cases pAttr
  · right; decide
  · right; decide
  · left; exact ⟨rfl, by decide⟩

/-- The listener calls made for a committed change when a change callback is
registered: exactly one. -/
theorem notifyChange_registered (s : State) (cbs : MyGPIOServiceCBs_t) (f connHandle : Nat)
    (pValue : List Nat) (len offset : Nat)
    (h1 : s.pAppCBs = some cbs) (h2 : cbs.pfnChangeCb = some f) :
    notifyChange s PS_PIN_ID connHandle PS_PIN_ID pValue len offset =
      [{ fn := f, connHandle := connHandle, svcUuid := MYGPIO_SERVICE_SERV_UUID,
         paramID := PS_PIN_ID, pValue := pValue, len := (len + offset) % 65536 }] := by
  have hne : PS_PIN_ID ≠ 0xFF := by decide
  simp only [notifyChange, if_pos hne, h1, h2]

/-- Without a registered listener no call is made. -/
theorem notifyChange_none (s : State) (changeParamID connHandle paramID : Nat)
    (pValue : List Nat) (len offset : Nat) (h1 : s.pAppCBs = none) :
    notifyChange s changeParamID connHandle paramID pValue len offset = [] := by
  simp only [notifyChange, h1]
  split <;> rfl

/-! ## Change notification and unresolved rows -/

/-- C11: a call of `MyGPIO_Service_WriteAttrCB` on a row of
`MyGPIO_ServiceAttrTbl`, with a buffer of `PS_PIN_LEN` bytes and input holding
at least `len` bytes, returns. With a listener registered whose `pfnChangeCb` is
set, the listener calls made are exactly one when the status is `SUCCESS` and
`offset + len ≥ PS_PIN_LEN_MIN`, carrying `connHandle`,
`MYGPIO_SERVICE_SERV_UUID`, `PS_PIN_ID`, the input bytes and length
`offset + len`, and none otherwise. With no listener registered no call is made
and a committed write still returns `SUCCESS`. -/
theorem WriteAttrCB_notifies (s : State) (connHandle pAttr : Nat) (pValue : List Nat)
    (len offset method : Nat)
    (hrow : pAttr < MyGPIO_ServiceAttrTbl.length) (hs : s.WF) (hv : len ≤ pValue.length) :
    ∃ r, MyGPIO_Service_WriteAttrCB MyGPIO_ServiceAttrTbl s connHandle pAttr pValue len
          offset method = some r ∧
      (∀ cbs f, s.pAppCBs = some cbs → cbs.pfnChangeCb = some f →
        ((r.status = SUCCESS ∧ PS_PIN_LEN_MIN ≤ offset + len) →
          r.calls = [{ fn := f, connHandle := connHandle,
                       svcUuid := MYGPIO_SERVICE_SERV_UUID, paramID := PS_PIN_ID,
                       pValue := pValue, len := offset + len }]) ∧
        (¬ (r.status = SUCCESS ∧ PS_PIN_LEN_MIN ≤ offset + len) → r.calls = [])) ∧
      (s.pAppCBs = none →
        r.calls = [] ∧
        (MyGPIO_Service_findCharParamId MyGPIO_ServiceAttrTbl pAttr = some PS_PIN_ID →
          offset < PS_PIN_LEN → PS_PIN_LEN_MIN ≤ offset + len → offset + len ≤ PS_PIN_LEN →
          r.status = SUCCESS)) := by
  unfold State.WF at hs
  have hmax : PS_PIN_LEN = 1 := rfl
  rcases findCharParamId_tbl_rows pAttr hrow with ⟨rfl, _⟩ | h255
  · rw [WriteAttrCB_value_row]
    by_cases h1 : offset ≥ PS_PIN_LEN
    · rw [if_pos h1]
      refine ⟨_, rfl, ?_, ?_⟩
      · intro cbs f _ _
        exact ⟨fun h => absurd (show ATT_ERR_INVALID_OFFSET = SUCCESS from h.1) (by decide),
          fun _ => rfl⟩
      · intro _
        exact ⟨rfl, fun _ h => absurd h (by omega)⟩
    · rw [if_neg h1]
      by_cases h2 : offset + len > PS_PIN_LEN
      · rw [if_pos h2]
        refine ⟨_, rfl, ?_, ?_⟩
        · intro cbs f _ _
          exact ⟨fun h => absurd (show ATT_ERR_INVALID_VALUE_SIZE = SUCCESS from h.1)
            (by decide), fun _ => rfl⟩
        · intro _
          exact ⟨rfl, fun _ _ _ h => absurd h (by omega)⟩
      · rw [if_neg h2]
        by_cases h3 : offset + len < PS_PIN_LEN_MIN ∧
            (method = ATT_EXECUTE_WRITE_REQ ∨ method = ATT_WRITE_REQ)
        · rw [if_pos h3]
          refine ⟨_, rfl, ?_, ?_⟩
          · intro cbs f _ _
            exact ⟨fun h => absurd (show ATT_ERR_INVALID_VALUE_SIZE = SUCCESS from h.1)
              (by decide), fun _ => rfl⟩
          · intro _
            exact ⟨rfl, fun _ _ h _ => absurd h (by omega)⟩
        · rw [if_neg h3]
          have hb : len ≤ pValue.length ∧ offset + len ≤ s.ps_PINVal.length := by omega
          have hm : memcpyInto s.ps_PINVal offset pValue len =
              some (s.ps_PINVal.take offset ++ pValue.take len ++
                s.ps_PINVal.drop (offset + len)) := by
            simp only [memcpyInto, if_pos hb]
          rw [hm]
          by_cases h4 : offset + len ≥ PS_PIN_LEN_MIN
          · have h16 : (offset + len) % 65536 = offset + len := by omega
            have h16b : (len + offset) % 65536 = offset + len := by omega
            simp only [if_pos h4]
            refine ⟨_, rfl, ?_, ?_⟩
            · intro cbs f hc hf
              refine ⟨fun _ => ?_, fun h => absurd ⟨rfl, h4⟩ h⟩
              refine (notifyChange_registered _ cbs f connHandle pValue len offset hc hf).trans ?_
              rw [h16b]
            · intro hn
              refine ⟨?_, fun _ _ _ _ => rfl⟩
              dsimp only
              exact notifyChange_none _ _ _ _ _ _ _ hn
          · simp only [if_neg h4]
            refine ⟨_, rfl, ?_, ?_⟩
            · intro cbs f _ _
              exact ⟨fun h => absurd h.2 h4, fun _ => rfl⟩
            · intro _
              exact ⟨rfl, fun _ _ h _ => absurd h h4⟩
  · rw [WriteAttrCB_default _ s connHandle pAttr pValue len offset method 0xFF h255 (by decide)]
    refine ⟨_, rfl, ?_, ?_⟩
    · intro cbs f _ _
      exact ⟨fun h => absurd (show ATT_ERR_ATTR_NOT_FOUND = SUCCESS from h.1) (by decide),
        fun _ => rfl⟩
    · intro _
      refine ⟨rfl, fun h => ?_⟩
      rw [h255] at h
      exact absurd h (by decide)

/-- Witness for C11: a write command of one byte on the value row with a
change callback registered. -/
theorem WriteAttrCB_notifies_witness :
    ∃ r, MyGPIO_Service_WriteAttrCB MyGPIO_ServiceAttrTbl
          { State.init with pAppCBs := some ⟨some 5, none⟩ } 9 2 [0x01] 1 0 ATT_WRITE_CMD =
          some r ∧
      (∀ cbs f, some (MyGPIOServiceCBs_t.mk (some 5) none) = some cbs →
        cbs.pfnChangeCb = some f →
        ((r.status = SUCCESS ∧ PS_PIN_LEN_MIN ≤ 0 + 1) →
          r.calls = [{ fn := f, connHandle := 9,
                       svcUuid := MYGPIO_SERVICE_SERV_UUID, paramID := PS_PIN_ID,
                       pValue := [0x01], len := 0 + 1 }]) ∧
        (¬ (r.status = SUCCESS ∧ PS_PIN_LEN_MIN ≤ 0 + 1) → r.calls = [])) ∧
      (some (MyGPIOServiceCBs_t.mk (some 5) none) = none →
        r.calls = [] ∧
        (MyGPIO_Service_findCharParamId MyGPIO_ServiceAttrTbl 2 = some PS_PIN_ID →
          0 < PS_PIN_LEN → PS_PIN_LEN_MIN ≤ 0 + 1 → 0 + 1 ≤ PS_PIN_LEN →
          r.status = SUCCESS)) :=
  WriteAttrCB_notifies { State.init with pAppCBs := some ⟨some 5, none⟩ } 9 2 [0x01] 1 0
    ATT_WRITE_CMD (by decide) (by decide) (by decide)

/-- C12: on every row that `MyGPIO_Service_findCharParamId` maps to `0xFF`, for
every state, offset, length and method, `MyGPIO_Service_ReadAttrCB` and
`MyGPIO_Service_WriteAttrCB` both return `ATT_ERR_ATTR_NOT_FOUND`, which is
neither `ATT_ERR_INVALID_OFFSET` nor `ATT_ERR_INVALID_VALUE_SIZE`; the read
stores no length and copies no byte, the write leaves the state as it was and
calls no listener. -/
theorem unresolved_short_circuits (tbl : List gattAttribute_t) (s : State)
    (connHandle pAttr : Nat) (pValue : List Nat) (len offset maxLen method : Nat)
    (h : MyGPIO_Service_findCharParamId tbl pAttr = some 0xFF) :
    MyGPIO_Service_ReadAttrCB tbl s connHandle pAttr offset maxLen method =
        some { status := ATT_ERR_ATTR_NOT_FOUND, pLen := none, pValue := [] } ∧
      MyGPIO_Service_WriteAttrCB tbl s connHandle pAttr pValue len offset method =
        some { status := ATT_ERR_ATTR_NOT_FOUND, state := s, calls := [] } ∧
      ATT_ERR_ATTR_NOT_FOUND ≠ ATT_ERR_INVALID_OFFSET ∧
      ATT_ERR_ATTR_NOT_FOUND ≠ ATT_ERR_INVALID_VALUE_SIZE :=
  ⟨ReadAttrCB_default tbl s connHandle pAttr offset maxLen method 0xFF h (by decide),
    WriteAttrCB_default tbl s connHandle pAttr pValue len offset method 0xFF h (by decide),
    by decide, by decide⟩

/-- Witness for C12: the characteristic declaration row, with an offset and a
length that the bounds checks would reject. -/
theorem unresolved_short_circuits_witness :
    MyGPIO_Service_ReadAttrCB MyGPIO_ServiceAttrTbl State.init 0 1 7 1 ATT_WRITE_REQ =
        some { status := ATT_ERR_ATTR_NOT_FOUND, pLen := none, pValue := [] } ∧
      MyGPIO_Service_WriteAttrCB MyGPIO_ServiceAttrTbl State.init 0 1 [1, 2] 2 7
          ATT_WRITE_REQ =
        some { status := ATT_ERR_ATTR_NOT_FOUND, state := State.init, calls := [] } ∧
      ATT_ERR_ATTR_NOT_FOUND ≠ ATT_ERR_INVALID_OFFSET ∧
      ATT_ERR_ATTR_NOT_FOUND ≠ ATT_ERR_INVALID_VALUE_SIZE :=
  unresolved_short_circuits MyGPIO_ServiceAttrTbl State.init 0 1 [1, 2] 2 7 1 ATT_WRITE_REQ
    (by decide)

/-! ## Invariant and frame -/

/-- An index past the last row is not a row of `MyGPIO_ServiceAttrTbl`. -/
theorem findCharParamId_tbl_none (pAttr : Nat) (h : MyGPIO_ServiceAttrTbl.length ≤ pAttr) :
    MyGPIO_Service_findCharParamId MyGPIO_ServiceAttrTbl pAttr = none := by
  have h3 : 3 ≤ pAttr := h
  obtain ⟨n, rfl⟩ : ∃ n, pAttr = n + 3 := ⟨pAttr - 3, by omega⟩
  have hn : MyGPIO_ServiceAttrTbl[n + 3]? = none := by
    simp [MyGPIO_ServiceAttrTbl]
  simp [MyGPIO_Service_findCharParamId, hn]

/-- Every listener call made for a change carries the 16-bit value of
`len + offset`. -/
theorem notifyChange_len (s : State) (changeParamID connHandle paramID : Nat)
    (pValue : List Nat) (len offset : Nat) :
    ∀ c ∈ notifyChange s changeParamID connHandle paramID pValue len offset,
      c.len = (len + offset) % 65536 := by
  intro c hc
  unfold notifyChange at hc
  split at hc
  · split at hc
    · cases hc
    · split at hc
      · cases hc
      · rw [List.mem_singleton] at hc
        rw [hc]
  · cases hc

/-- What a returning call of the write callback on `MyGPIO_ServiceAttrTbl` can
have done: either it rejected the write and touched nothing, or it is on the
value row, is within capacity, copied the input into `ps_PINVal`, and either
committed the length `offset + len` or left the length alone. -/
theorem WriteAttrCB_outcome (s : State) (connHandle pAttr : Nat) (pValue : List Nat)
    (len offset method : Nat) (r : WriteResult)
    (h : MyGPIO_Service_WriteAttrCB MyGPIO_ServiceAttrTbl s connHandle pAttr pValue len offset
      method = some r) :
    (r.status ≠ SUCCESS ∧ r.state = s ∧ r.calls = []) ∨
    (r.status = SUCCESS ∧ pAttr = 2 ∧ offset + len ≤ PS_PIN_LEN ∧
      r.state.pAppCBs = s.pAppCBs ∧ r.state.ps_PINProps = s.ps_PINProps ∧
      memcpyInto s.ps_PINVal offset pValue len = some r.state.ps_PINVal ∧
      ((PS_PIN_LEN_MIN ≤ offset + len ∧ r.state.ps_PINValLen = offset + len ∧
          ∀ c ∈ r.calls, c.len = offset + len) ∨
        (offset + len < PS_PIN_LEN_MIN ∧ r.state.ps_PINValLen = s.ps_PINValLen ∧
          r.calls = []))) := by
  have hmax : PS_PIN_LEN = 1 := rfl
  have e1 : ATT_ERR_INVALID_OFFSET ≠ SUCCESS := by decide
  have e2 : ATT_ERR_INVALID_VALUE_SIZE ≠ SUCCESS := by decide
  have e3 : ATT_ERR_ATTR_NOT_FOUND ≠ SUCCESS := by decide
  by_cases hrow : pAttr < MyGPIO_ServiceAttrTbl.length
  · rcases findCharParamId_tbl_rows pAttr hrow with ⟨rfl, _⟩ | h255
    · rw [WriteAttrCB_value_row] at h
      split at h
      · cases h; exact Or.inl ⟨e1, rfl, rfl⟩
      · split at h
        · cases h; exact Or.inl ⟨e2, rfl, rfl⟩
        · split at h
          · cases h; exact Or.inl ⟨e2, rfl, rfl⟩
          · rename_i h1 h2 h3
            split at h
            · cases h
            · rename_i d hd
              split at h
              · rename_i h4
                cases h
                refine Or.inr ⟨rfl, rfl, by omega, rfl, rfl, hd, Or.inl ⟨h4, ?_, ?_⟩⟩
                · show (offset + len) % 65536 = offset + len
                  omega
                · intro c hc
                  rw [notifyChange_len ⟨s.pAppCBs, s.ps_PINProps, d, (offset + len) % 65536⟩
                    PS_PIN_ID connHandle PS_PIN_ID pValue len offset c hc]
                  omega
              · rename_i h4
                cases h
                exact Or.inr ⟨rfl, rfl, by omega, rfl, rfl, hd,
                  Or.inr ⟨by omega, rfl, rfl⟩⟩
    · rw [WriteAttrCB_default _ s connHandle pAttr pValue len offset method 0xFF h255
        (by decide)] at h
      cases h
      exact Or.inl ⟨e3, rfl, rfl⟩
  · have hn := findCharParamId_tbl_none pAttr (by omega)
    simp only [MyGPIO_Service_WriteAttrCB, hn] at h
    cases h

/-- One call keeps `PS_PIN_LEN_MIN ≤ ps_PINValLen ≤ PS_PIN_LEN`. -/
theorem after_LenInv (s : State) (c : Call) (s1 : State) (hi : s.LenInv)
    (h : s.after c = some s1) : s1.LenInv := by
  cases c with
  | RegisterAppCBs appCallbacks =>
    cases appCallbacks with
    | none =>
      simp only [State.after, MyGPIOService_RegisterAppCBs] at h
      cases h; exact hi
    | some cbs =>
      simp only [State.after, MyGPIOService_RegisterAppCBs] at h
      cases h; exact hi
  | SetParameter param len value =>
    simp only [State.after, MyGPIOService_SetParameter] at h
    split at h
    · split at h
      · rename_i hr
        split at h
        · cases h
        · simp only [Option.map_some'] at h
          cases h
          exact ⟨hr.2, hr.1⟩
      · simp only [Option.map_some'] at h
        cases h; exact hi
    · simp only [Option.map_some'] at h
      cases h; exact hi
  | GetParameter param len =>
    simp only [State.after] at h
    cases hg : MyGPIOService_GetParameter s param len with
    | none => rw [hg] at h; cases h
    | some r => rw [hg] at h; cases h; exact hi
  | ReadAttrCB connHandle pAttr offset maxLen method =>
    simp only [State.after] at h
    cases hg : MyGPIO_Service_ReadAttrCB MyGPIO_ServiceAttrTbl s connHandle pAttr offset maxLen
        method with
    | none => rw [hg] at h; cases h
    | some r => rw [hg] at h; cases h; exact hi
  | WriteAttrCB connHandle pAttr pValue len offset method =>
    simp only [State.after] at h
    cases hg : MyGPIO_Service_WriteAttrCB MyGPIO_ServiceAttrTbl s connHandle pAttr pValue len
        offset method with
    | none => rw [hg] at h; cases h
    | some r =>
      rw [hg] at h
      cases h
      unfold State.LenInv at hi ⊢
      dsimp only
      rcases WriteAttrCB_outcome s connHandle pAttr pValue len offset method r hg with
        ⟨_, hs, _⟩ | ⟨_, _, hle, _, _, _, ⟨hge, hl, _⟩ | ⟨_, hl, _⟩⟩
      · rw [hs]; exact hi
      · rw [hl]; exact ⟨hge, hle⟩
      · rw [hl]; exact hi

/-- A sequence of calls keeps `PS_PIN_LEN_MIN ≤ ps_PINValLen ≤ PS_PIN_LEN`. -/
theorem run_LenInv (cs : List Call) : ∀ (s0 s : State), s0.LenInv → s0.run cs = some s →
    s.LenInv := by
  induction cs with
  | nil =>
    intro s0 s hi h
    simp only [State.run] at h
    cases h
    exact hi
  | cons c cs ih =>
    intro s0 s hi h
    simp only [State.run] at h
    cases hc : s0.after c with
    | none => rw [hc] at h; cases h
    | some s1 =>
      rw [hc] at h
      exact ih s1 s (after_LenInv s0 c s1 hi hc) h

/-- One call keeps the buffer at its declared size. -/
theorem after_WF (s : State) (c : Call) (s1 : State) (hi : s.WF)
    (h : s.after c = some s1) : s1.WF := by
  cases c with
  | RegisterAppCBs appCallbacks =>
    cases appCallbacks with
    | none =>
      simp only [State.after, MyGPIOService_RegisterAppCBs] at h
      cases h; exact hi
    | some cbs =>
      simp only [State.after, MyGPIOService_RegisterAppCBs] at h
      cases h; exact hi
  | SetParameter param len value =>
    simp only [State.after, MyGPIOService_SetParameter] at h
    split at h
    · split at h
      · split at h
        · cases h
        · rename_i buf hbuf
          simp only [Option.map_some'] at h
          cases h
          unfold State.WF at hi ⊢
          exact (memcpyInto_length hbuf).trans hi
      · simp only [Option.map_some'] at h
        cases h; exact hi
    · simp only [Option.map_some'] at h
      cases h; exact hi
  | GetParameter param len =>
    simp only [State.after] at h
    cases hg : MyGPIOService_GetParameter s param len with
    | none => rw [hg] at h; cases h
    | some r => rw [hg] at h; cases h; exact hi
  | ReadAttrCB connHandle pAttr offset maxLen method =>
    simp only [State.after] at h
    cases hg : MyGPIO_Service_ReadAttrCB MyGPIO_ServiceAttrTbl s connHandle pAttr offset maxLen
        method with
    | none => rw [hg] at h; cases h
    | some r => rw [hg] at h; cases h; exact hi
  | WriteAttrCB connHandle pAttr pValue len offset method =>
    simp only [State.after] at h
    cases hg : MyGPIO_Service_WriteAttrCB MyGPIO_ServiceAttrTbl s connHandle pAttr pValue len
        offset method with
    | none => rw [hg] at h; cases h
    | some r =>
      rw [hg] at h
      cases h
      unfold State.WF at hi ⊢
      dsimp only
      rcases WriteAttrCB_outcome s connHandle pAttr pValue len offset method r hg with
        ⟨_, hs, _⟩ | ⟨_, _, _, _, _, hcopy, _⟩
      · rw [hs]; exact hi
      · exact (memcpyInto_length hcopy).trans hi

/-- A sequence of calls from the initial state keeps the buffer at its declared
size. -/
theorem run_WF (cs : List Call) : ∀ (s0 s : State), s0.WF → s0.run cs = some s → s.WF := by
  induction cs with
  | nil =>
    intro s0 s hi h
    simp only [State.run] at h
    cases h
    exact hi
  | cons c cs ih =>
    intro s0 s hi h
    simp only [State.run] at h
    cases hc : s0.after c with
    | none => rw [hc] at h; cases h
    | some s1 =>
      rw [hc] at h
      exact ih s1 s (after_WF s0 c s1 hi hc) h

/-- C13: `PS_PIN_LEN_MIN ≤ ps_PINValLen ≤ PS_PIN_LEN` holds in the initial
state; every call of `MyGPIOService_RegisterAppCBs`,
`MyGPIOService_SetParameter`, `MyGPIOService_GetParameter`,
`MyGPIO_Service_ReadAttrCB` and `MyGPIO_Service_WriteAttrCB`, with any
arguments, preserves it; so it holds in every state reached from the initial
one by a sequence of calls. -/
theorem LenInv_invariant :
    State.init.LenInv ∧
      (∀ (s : State) (c : Call) (s1 : State), s.LenInv → s.after c = some s1 → s1.LenInv) ∧
      (∀ (cs : List Call) (s : State), State.init.run cs = some s → s.LenInv) :=
  ⟨by decide, after_LenInv, fun cs s h => run_LenInv cs State.init s (by decide) h⟩

/-- Witness for C13: the state reached by a rejected set, a committed write, a
read and a get. -/
theorem LenInv_invariant_witness :
    State.init.run [Call.SetParameter PS_PIN_ID 2 [1, 2],
        Call.WriteAttrCB 0 2 [0x01] 1 0 ATT_WRITE_REQ, Call.ReadAttrCB 0 2 0 1 0,
        Call.GetParameter PS_PIN_ID 1] =
        some { State.init with ps_PINVal := [0x01] } ∧
      State.LenInv { State.init with ps_PINVal := [0x01] } :=
  ⟨by decide,
    LenInv_invariant.2.2
      [Call.SetParameter PS_PIN_ID 2 [1, 2], Call.WriteAttrCB 0 2 [0x01] 1 0 ATT_WRITE_REQ,
        Call.ReadAttrCB 0 2 0 1 0, Call.GetParameter PS_PIN_ID 1]
      { State.init with ps_PINVal := [0x01] } (by decide)⟩

/-- C14: a returning call of `MyGPIO_Service_ReadAttrCB`, with any arguments,
leaves the whole state (buffer, current length and registered listener) as it
was; and a call of `MyGPIO_Service_WriteAttrCB` that returns a status other
than `SUCCESS` leaves the whole state, hence the buffer and the current length,
as it was. -/
theorem reads_and_rejected_writes_keep_state :
    (∀ (s : State) (connHandle pAttr offset maxLen method : Nat) (s1 : State),
        s.after (Call.ReadAttrCB connHandle pAttr offset maxLen method) = some s1 → s1 = s) ∧
      (∀ (s : State) (connHandle pAttr : Nat) (pValue : List Nat) (len offset method : Nat)
        (r : WriteResult),
        MyGPIO_Service_WriteAttrCB MyGPIO_ServiceAttrTbl s connHandle pAttr pValue len offset
            method = some r →
          r.status ≠ SUCCESS → r.state = s) := by
  constructor
  · intro s connHandle pAttr offset maxLen method s1 h
    simp only [State.after] at h
    cases hg : MyGPIO_Service_ReadAttrCB MyGPIO_ServiceAttrTbl s connHandle pAttr offset maxLen
        method with
    | none => rw [hg] at h; cases h
    | some r => rw [hg] at h; cases h; rfl
  · intro s connHandle pAttr pValue len offset method r h hne
    rcases WriteAttrCB_outcome s connHandle pAttr pValue len offset method r h with
      ⟨_, hs, _⟩ | ⟨hok, _⟩
    · exact hs
    · exact absurd hok hne

/-- Witness for C14: a read past the end and a write of two bytes, both on the
value row in the initial state. -/
theorem reads_and_rejected_writes_keep_state_witness :
    State.init.after (Call.ReadAttrCB 0 2 2 1 0) = some State.init ∧
      MyGPIO_Service_WriteAttrCB MyGPIO_ServiceAttrTbl State.init 0 2 [1, 2] 2 0
          ATT_WRITE_REQ =
        some { status := ATT_ERR_INVALID_VALUE_SIZE, state := State.init, calls := [] } ∧
      State.init = State.init ∧
      (WriteResult.mk ATT_ERR_INVALID_VALUE_SIZE State.init []).state = State.init :=
  ⟨by decide, by decide,
    reads_and_rejected_writes_keep_state.1 State.init 0 2 2 1 0 State.init (by decide),
    reads_and_rejected_writes_keep_state.2 State.init 0 2 [1, 2] 2 0 ATT_WRITE_REQ
      (WriteResult.mk ATT_ERR_INVALID_VALUE_SIZE State.init []) (by decide) (by decide)⟩

/-! ## Listener registration -/

/-- C15: `MyGPIOService_RegisterAppCBs` returns `FAILURE` exactly when the
argument is `NULL`, and then the state, hence the registered listener, is as it
was; for a non-null argument it returns `SUCCESS` and `pAppCBs` is that
listener; in both cases `ps_PINProps`, the buffer and the current length are
unchanged. -/
theorem RegisterAppCBs_spec (s : State) (appCallbacks : Option MyGPIOServiceCBs_t) :
    ((MyGPIOService_RegisterAppCBs s appCallbacks).1 = FAILURE ↔ appCallbacks = none) ∧
      (appCallbacks = none → (MyGPIOService_RegisterAppCBs s appCallbacks).2 = s) ∧
      (∀ cbs, appCallbacks = some cbs →
        (MyGPIOService_RegisterAppCBs s appCallbacks).1 = SUCCESS ∧
        (MyGPIOService_RegisterAppCBs s appCallbacks).2.pAppCBs = some cbs) ∧
      (MyGPIOService_RegisterAppCBs s appCallbacks).2.ps_PINProps = s.ps_PINProps ∧
      (MyGPIOService_RegisterAppCBs s appCallbacks).2.ps_PINVal = s.ps_PINVal ∧
      (MyGPIOService_RegisterAppCBs s appCallbacks).2.ps_PINValLen = s.ps_PINValLen := by
  cases appCallbacks with
  | none =>
    refine ⟨⟨fun _ => rfl, fun _ => rfl⟩, fun _ => rfl, ?_, rfl, rfl, rfl⟩
    intro cbs h
    cases h
  | some c =>
    refine ⟨⟨fun h => ?_, fun h => ?_⟩, fun h => ?_, ?_, rfl, rfl, rfl⟩
    · exact absurd (show SUCCESS = FAILURE from h) (by decide)
    · cases h
    · cases h
    · intro cbs h
      cases h
      exact ⟨rfl, rfl⟩

/-- Witness for C15: a null registration after a listener was registered keeps
that listener. -/
theorem RegisterAppCBs_spec_witness :
    (MyGPIOService_RegisterAppCBs { State.init with pAppCBs := some ⟨some 5, none⟩ } none).2 =
      { State.init with pAppCBs := some ⟨some 5, none⟩ } :=
  (RegisterAppCBs_spec { State.init with pAppCBs := some ⟨some 5, none⟩ } none).2.1 rfl

/-! ## Resolution -/

/-- A row that is not a descriptor resolves on the spot: to `PS_PIN_ID` when it
carries the 128-bit PIN identifier, to `0xFF` otherwise. -/
theorem findCharParamId_direct (tbl : List gattAttribute_t) (j : Nat) (c : gattAttribute_t)
    (hc : tbl[j]? = some c) (hn : isClientCharCfg c = false) :
    MyGPIO_Service_findCharParamId tbl j =
      some (if isPinChar c = true then PS_PIN_ID else 0xFF) := by
  cases j with
  | zero =>
    simp only [MyGPIO_Service_findCharParamId, hc, hn, Bool.false_eq_true, if_false]
    cases isPinChar c <;> rfl
  | succ i =>
    simp only [MyGPIO_Service_findCharParamId, hc, hn, Bool.false_eq_true, if_false]
    cases isPinChar c <;> rfl

/-- C16 as stated fails: in a table whose value row is followed by two
descriptor rows, row 2 is a descriptor and row 1 does not carry the 128-bit PIN
identifier, yet `MyGPIO_Service_findCharParamId` steps back twice and returns
`PS_PIN_ID`, not `0xFF`. -/
theorem findCharParamId_two_hops :
    twoDescriptorTbl[2]? = some clientCharCfgRow ∧
      isClientCharCfg clientCharCfgRow = true ∧
      twoDescriptorTbl[1]? = some clientCharCfgRow ∧
      isPinChar clientCharCfgRow = false ∧
      MyGPIO_Service_findCharParamId twoDescriptorTbl 2 = some PS_PIN_ID ∧
      PS_PIN_ID ≠ 0xFF := by
  decide

/-- C16 (amended): in every table, for a descriptor row `i + 1` whose preceding
row `i` is not itself a descriptor, `MyGPIO_Service_findCharParamId` takes one
backward step: its result is `PS_PIN_ID` if row `i` carries the 128-bit PIN
identifier and `0xFF` otherwise; and for a row that is not a descriptor it is
`PS_PIN_ID` when the row carries the 128-bit PIN identifier and `0xFF` for any
other type. -/
theorem findCharParamId_one_hop (tbl : List gattAttribute_t) :
    (∀ (i : Nat) (a b : gattAttribute_t), tbl[i + 1]? = some a → tbl[i]? = some b →
        isClientCharCfg a = true → isClientCharCfg b = false →
        MyGPIO_Service_findCharParamId tbl (i + 1) =
          some (if isPinChar b = true then PS_PIN_ID else 0xFF)) ∧
      (∀ (j : Nat) (c : gattAttribute_t), tbl[j]? = some c → isClientCharCfg c = false →
        MyGPIO_Service_findCharParamId tbl j =
          some (if isPinChar c = true then PS_PIN_ID else 0xFF)) := by
  constructor
  · intro i a b ha hb hcfg hprev
    have hstep : MyGPIO_Service_findCharParamId tbl (i + 1) =
        MyGPIO_Service_findCharParamId tbl i := by
      simp only [MyGPIO_Service_findCharParamId, ha, hcfg, if_true]
    rw [hstep]
    exact findCharParamId_direct tbl i b hb hprev
  · intro j c hc hn
    exact findCharParamId_direct tbl j c hc hn

/-- Witness for C16 as amended: a descriptor right after the value row, and
the value row itself. -/
theorem findCharParamId_one_hop_witness :
    MyGPIO_Service_findCharParamId twoDescriptorTbl (0 + 1) =
        some (if isPinChar pinValueRow = true then PS_PIN_ID else 0xFF) ∧
      MyGPIO_Service_findCharParamId twoDescriptorTbl 0 =
        some (if isPinChar pinValueRow = true then PS_PIN_ID else 0xFF) :=
  ⟨(findCharParamId_one_hop twoDescriptorTbl).1 0 clientCharCfgRow pinValueRow (by decide)
      (by decide) (by decide) (by decide),
    (findCharParamId_one_hop twoDescriptorTbl).2 0 pinValueRow (by decide) (by decide)⟩

/-! ## Staged writes -/

/-- C17 as stated fails: an execute write request (`ATT_EXECUTE_WRITE_REQ`), the
step that applies prepared writes and is neither a write request nor a write
command, of `len = 0` at `offset = 0` on the value row has `offset < PS_PIN_LEN`
and `offset + len < PS_PIN_LEN_MIN`, and `MyGPIO_Service_WriteAttrCB` returns
`ATT_ERR_INVALID_VALUE_SIZE`, not `SUCCESS`. -/
theorem WriteAttrCB_execute_write_below_min :
    MyGPIO_Service_findCharParamId MyGPIO_ServiceAttrTbl 2 = some PS_PIN_ID ∧
      0 < PS_PIN_LEN ∧ 0 + 0 < PS_PIN_LEN_MIN ∧
      ATT_EXECUTE_WRITE_REQ ≠ ATT_WRITE_REQ ∧ ATT_EXECUTE_WRITE_REQ ≠ ATT_WRITE_CMD ∧
      MyGPIO_Service_WriteAttrCB MyGPIO_ServiceAttrTbl State.init 0 2 [] 0 0
          ATT_EXECUTE_WRITE_REQ =
        some { status := ATT_ERR_INVALID_VALUE_SIZE, state := State.init, calls := [] } ∧
      ATT_ERR_INVALID_VALUE_SIZE ≠ SUCCESS := by
  decide

/-- C17 (amended): for a row that resolves to the parameter, a buffer of
`PS_PIN_LEN` bytes, input holding at least `len` bytes, `offset < PS_PIN_LEN`
and `offset + len < PS_PIN_LEN_MIN`, a write whose method is neither a write
request (`ATT_WRITE_REQ`) nor an execute write request
(`ATT_EXECUTE_WRITE_REQ`) returns `SUCCESS`; the buffer bytes at indices
`offset .. offset + len - 1` are the input bytes and every other byte is
unchanged; `ps_PINValLen` and the listener are unchanged; no listener is
called. -/
theorem WriteAttrCB_staged (s : State) (connHandle pAttr : Nat) (pValue : List Nat)
    (len offset method : Nat)
    (hres : MyGPIO_Service_findCharParamId MyGPIO_ServiceAttrTbl pAttr = some PS_PIN_ID)
    (hs : s.WF) (hv : len ≤ pValue.length)
    (ho : offset < PS_PIN_LEN) (hmin : offset + len < PS_PIN_LEN_MIN)
    (hm1 : method ≠ ATT_WRITE_REQ) (hm2 : method ≠ ATT_EXECUTE_WRITE_REQ) :
    ∃ r, MyGPIO_Service_WriteAttrCB MyGPIO_ServiceAttrTbl s connHandle pAttr pValue len
          offset method = some r ∧
      r.status = SUCCESS ∧
      r.state.ps_PINValLen = s.ps_PINValLen ∧
      r.state.pAppCBs = s.pAppCBs ∧
      r.calls = [] ∧
      r.state.ps_PINVal.length = s.ps_PINVal.length ∧
      (∀ i, offset ≤ i → i < offset + len → r.state.ps_PINVal[i]? = pValue[i - offset]?) ∧
      (∀ i, i < offset ∨ offset + len ≤ i → r.state.ps_PINVal[i]? = s.ps_PINVal[i]?) := by
  obtain rfl := findCharParamId_tbl_resolves pAttr hres
  unfold State.WF at hs
  have hmm : PS_PIN_LEN_MIN ≤ PS_PIN_LEN := by decide
  have h1 : ¬ offset ≥ PS_PIN_LEN := by omega
  have h2 : ¬ offset + len > PS_PIN_LEN := by omega
  have h3 : ¬ (offset + len < PS_PIN_LEN_MIN ∧
      (method = ATT_EXECUTE_WRITE_REQ ∨ method = ATT_WRITE_REQ)) := by
    rintro ⟨_, h | h⟩
    · exact hm2 h
    · exact hm1 h
  have h4 : ¬ offset + len ≥ PS_PIN_LEN_MIN := by omega
  have hb : len ≤ pValue.length ∧ offset + len ≤ s.ps_PINVal.length := by omega
  have hm : memcpyInto s.ps_PINVal offset pValue len =
      some (s.ps_PINVal.take offset ++ pValue.take len ++ s.ps_PINVal.drop (offset + len)) := by
    simp only [memcpyInto, if_pos hb]
  have hw : MyGPIO_Service_WriteAttrCB MyGPIO_ServiceAttrTbl s connHandle 2 pValue len offset
      method =
      some { status := SUCCESS,
             state := ⟨s.pAppCBs, s.ps_PINProps,
               s.ps_PINVal.take offset ++ pValue.take len ++ s.ps_PINVal.drop (offset + len),
               s.ps_PINValLen⟩,
             calls := [] } := by
    rw [WriteAttrCB_value_row, if_neg h1, if_neg h2, if_neg h3, hm]
    simp only [if_neg h4]
  refine ⟨_, hw, rfl, rfl, rfl, rfl, memcpyInto_length hm, ?_, ?_⟩
  · intro i hi1 hi2
    exact memcpyInto_getElem?_inside hm i hi1 hi2
  · intro i hi
    exact memcpyInto_getElem?_outside hm i hi

/-- Witness for C17 as amended: a write command of no bytes at offset 0 on the
value row. -/
theorem WriteAttrCB_staged_witness :
    ∃ r, MyGPIO_Service_WriteAttrCB MyGPIO_ServiceAttrTbl State.init 0 2 [] 0 0
          ATT_WRITE_CMD = some r ∧
      r.status = SUCCESS ∧
      r.state.ps_PINValLen = State.init.ps_PINValLen ∧
      r.state.pAppCBs = State.init.pAppCBs ∧
      r.calls = [] ∧
      r.state.ps_PINVal.length = State.init.ps_PINVal.length ∧
      (∀ i, 0 ≤ i → i < 0 + 0 → r.state.ps_PINVal[i]? = ([] : List Nat)[i - 0]?) ∧
      (∀ i, i < 0 ∨ 0 + 0 ≤ i → r.state.ps_PINVal[i]? = State.init.ps_PINVal[i]?) :=
  WriteAttrCB_staged State.init 0 2 [] 0 0 ATT_WRITE_CMD (by decide) (by decide) (by decide)
    (by decide) (by decide) (by decide) (by decide)

/-! ## A write seen through both read paths -/

/-- C18: after a committed write of `len` bytes at offset 0 through the value
row (row 2 of `MyGPIO_ServiceAttrTbl`), which returns `SUCCESS`,
`MyGPIOService_GetParameter` with capacity at least `len` reports length `len`
and copies exactly the written bytes, and `MyGPIO_Service_ReadAttrCB` on the
same row at offset 0 with `maxLen ≥ len` returns `SUCCESS` with exactly the
written bytes. The status that `MyGPIOService_GetParameter` returns is not part
of the statement. -/
theorem committed_write_then_reads (s : State) (connHandle : Nat) (pValue : List Nat)
    (len method capacity connHandle1 maxLen method1 : Nat)
    (hs : s.WF) (hv : len ≤ pValue.length)
    (hmin : PS_PIN_LEN_MIN ≤ len) (hmax : len ≤ PS_PIN_LEN)
    (hcap : len ≤ capacity) (hret : len ≤ maxLen) :
    ∃ r, MyGPIO_Service_WriteAttrCB MyGPIO_ServiceAttrTbl s connHandle 2 pValue len 0 method =
          some r ∧
      r.status = SUCCESS ∧
      (∃ g, MyGPIOService_GetParameter r.state PS_PIN_ID capacity = some g ∧
        g.len = len ∧ g.value = pValue.take len) ∧
      MyGPIO_Service_ReadAttrCB MyGPIO_ServiceAttrTbl r.state connHandle1 2 0 maxLen method1 =
        some { status := SUCCESS, pLen := some len, pValue := pValue.take len } := by
  unfold State.WF at hs
  have hone : PS_PIN_LEN = 1 := rfl
  have h1 : ¬ 0 ≥ PS_PIN_LEN := by omega
  have h2 : ¬ 0 + len > PS_PIN_LEN := by omega
  have h3 : ¬ (0 + len < PS_PIN_LEN_MIN ∧
      (method = ATT_EXECUTE_WRITE_REQ ∨ method = ATT_WRITE_REQ)) := by omega
  have h4 : 0 + len ≥ PS_PIN_LEN_MIN := by omega
  have hb : len ≤ pValue.length ∧ 0 + len ≤ s.ps_PINVal.length := by omega
  have hm : memcpyInto s.ps_PINVal 0 pValue len =
      some (s.ps_PINVal.take 0 ++ pValue.take len ++ s.ps_PINVal.drop (0 + len)) := by
    simp only [memcpyInto, if_pos hb]
  have h16 : (0 + len) % 65536 = len := by omega
  have hw : MyGPIO_Service_WriteAttrCB MyGPIO_ServiceAttrTbl s connHandle 2 pValue len 0
      method =
      some { status := SUCCESS,
             state := ⟨s.pAppCBs, s.ps_PINProps,
               s.ps_PINVal.take 0 ++ pValue.take len ++ s.ps_PINVal.drop (0 + len), len⟩,
             calls := notifyChange ⟨s.pAppCBs, s.ps_PINProps,
               s.ps_PINVal.take 0 ++ pValue.take len ++ s.ps_PINVal.drop (0 + len), len⟩
               PS_PIN_ID connHandle PS_PIN_ID pValue len 0 } := by
    rw [WriteAttrCB_value_row, if_neg h1, if_neg h2, if_neg h3, hm]
    simp only [if_pos h4, h16]
  have hl : (pValue.take len).length = len := by
    rw [List.length_take]; omega
  have hbuf : (s.ps_PINVal.take 0 ++ pValue.take len ++ s.ps_PINVal.drop (0 + len)).take len =
      pValue.take len := by
    rw [List.take_zero, List.nil_append, List.take_append_eq_append_take, hl, Nat.sub_self,
      List.take_zero, List.append_nil, List.take_take, Nat.min_self]
  have hlen : (s.ps_PINVal.take 0 ++ pValue.take len ++ s.ps_PINVal.drop (0 + len)).length =
      PS_PIN_LEN := by
    rw [memcpyInto_length hm, hs]
  refine ⟨_, hw, rfl, ⟨_, GetParameter_copy _ capacity ?_, ?_, ?_⟩, ?_⟩
  · show len ≤ _
    rw [hlen]; exact hmax
  · show min capacity len = len
    omega
  · show List.take (min capacity len) _ = pValue.take len
    rw [Nat.min_eq_right hcap]
    exact hbuf
  · refine (ReadAttrCB_in_range
      ⟨s.pAppCBs, s.ps_PINProps,
        s.ps_PINVal.take 0 ++ pValue.take len ++ s.ps_PINVal.drop (0 + len), len⟩
      connHandle1 2 0 maxLen method1 findCharParamId_tbl_two hlen hmax (Nat.zero_le _)).trans ?_
    dsimp only
    rw [Nat.sub_zero, Nat.min_eq_right hret, List.drop_zero, hbuf]

/-- Witness for C18: the scenario `write(offset=0, len=1, [0x01])` from the
initial state. -/
theorem committed_write_then_reads_witness :
    ∃ r, MyGPIO_Service_WriteAttrCB MyGPIO_ServiceAttrTbl State.init 0 2 [0x01] 1 0
          ATT_WRITE_REQ = some r ∧
      r.status = SUCCESS ∧
      (∃ g, MyGPIOService_GetParameter r.state PS_PIN_ID 1 = some g ∧
        g.len = 1 ∧ g.value = [0x01].take 1) ∧
      MyGPIO_Service_ReadAttrCB MyGPIO_ServiceAttrTbl r.state 0 2 0 1 0 =
        some { status := SUCCESS, pLen := some 1, pValue := [0x01].take 1 } :=
  committed_write_then_reads State.init 0 [0x01] 1 ATT_WRITE_REQ 1 0 1 0 (by decide)
    (by decide) (by decide) (by decide) (by decide) (by decide)

/-! ## Arithmetic of the write bounds -/

/-- C19: in a returning call of `MyGPIO_Service_WriteAttrCB`, if the
mathematical sum `offset + len` exceeds `PS_PIN_LEN` the write is rejected and
nothing is copied (state unchanged, no listener call); on a committed write
(`SUCCESS` with `offset + len ≥ PS_PIN_LEN_MIN`) the value stored in
`ps_PINValLen` and the length passed to every listener call are the
mathematical sum `offset + len`; and past the offset check
(`offset < PS_PIN_LEN`) the sum of a 16-bit `len` reduced to 16 bits is the
mathematical sum. -/
theorem WriteAttrCB_no_wraparound (s : State) (connHandle pAttr : Nat) (pValue : List Nat)
    (len offset method : Nat) (r : WriteResult)
    (h : MyGPIO_Service_WriteAttrCB MyGPIO_ServiceAttrTbl s connHandle pAttr pValue len offset
      method = some r) :
    (PS_PIN_LEN < offset + len → r.status ≠ SUCCESS ∧ r.state = s ∧ r.calls = []) ∧
      (r.status = SUCCESS → PS_PIN_LEN_MIN ≤ offset + len →
        r.state.ps_PINValLen = offset + len ∧ ∀ c ∈ r.calls, c.len = offset + len) ∧
      (offset < PS_PIN_LEN → len < 65536 → (offset + len) % 65536 = offset + len) := by
  have hone : PS_PIN_LEN = 1 := rfl
  refine ⟨?_, ?_, fun ho hl => by omega⟩
  · intro hgt
    rcases WriteAttrCB_outcome s connHandle pAttr pValue len offset method r h with
      hrej | ⟨_, _, hle, _⟩
    · exact hrej
    · omega
  · intro hok hge
    rcases WriteAttrCB_outcome s connHandle pAttr pValue len offset method r h with
      ⟨hne, _⟩ | ⟨_, _, _, _, _, _, ⟨_, hl, hc⟩ | ⟨hlt, _⟩⟩
    · exact absurd hok hne
    · exact ⟨hl, hc⟩
    · omega

/-- Witness for C19: offset 0 and length 65535 on the value row, and the
committed write of one byte with a change callback registered. -/
theorem WriteAttrCB_no_wraparound_witness :
    (PS_PIN_LEN < 0 + 65535 →
        ATT_ERR_INVALID_VALUE_SIZE ≠ SUCCESS ∧
          (WriteResult.mk ATT_ERR_INVALID_VALUE_SIZE State.init []).state = State.init ∧
          (WriteResult.mk ATT_ERR_INVALID_VALUE_SIZE State.init []).calls = []) ∧
      (0 < PS_PIN_LEN → 65535 < 65536 → (0 + 65535) % 65536 = 0 + 65535) :=
  ⟨(WriteAttrCB_no_wraparound State.init 0 2 (List.replicate 65535 0) 65535 0 ATT_WRITE_REQ
      (WriteResult.mk ATT_ERR_INVALID_VALUE_SIZE State.init [])
      (by rw [WriteAttrCB_value_row]; rfl)).1,
    (WriteAttrCB_no_wraparound State.init 0 2 (List.replicate 65535 0) 65535 0 ATT_WRITE_REQ
      (WriteResult.mk ATT_ERR_INVALID_VALUE_SIZE State.init [])
      (by rw [WriteAttrCB_value_row]; rfl)).2.2⟩

/-! ## Resolution over the registered table -/

/-- C20: `MyGPIO_ServiceAttrTbl` has three rows, none of them a descriptor, so
`MyGPIO_Service_findCharParamId` takes no backward step on any of them; it
returns `0xFF` for row 0 and row 1 and `PS_PIN_ID` for row 2; row 2 is the only
row whose `pValue` is `ps_PINVal`, and that storage is the buffer
`MyGPIOService_SetParameter` and `MyGPIOService_GetParameter` work on. -/
theorem tbl_resolution_total :
    MyGPIO_ServiceAttrTbl.length = 3 ∧
      (∀ a ∈ MyGPIO_ServiceAttrTbl, isClientCharCfg a = false) ∧
      MyGPIO_Service_findCharParamId MyGPIO_ServiceAttrTbl 0 = some 0xFF ∧
      MyGPIO_Service_findCharParamId MyGPIO_ServiceAttrTbl 1 = some 0xFF ∧
      MyGPIO_Service_findCharParamId MyGPIO_ServiceAttrTbl 2 = some PS_PIN_ID ∧
      (∀ (i : Nat) (a : gattAttribute_t), MyGPIO_ServiceAttrTbl[i]? = some a →
        (a.pValue = ValueRef.ps_PINVal ↔ i = 2)) ∧
      (∀ s : State, s.load ValueRef.ps_PINVal = some s.ps_PINVal) := by
  refine ⟨rfl, by decide, by decide, by decide, by decide, ?_, fun _ => rfl⟩
  intro i a h
  match i, h with
  | 0, h => cases h; decide
  | 1, h => cases h; decide
  | 2, h => cases h; decide
  | n + 3, h =>
    have hn : MyGPIO_ServiceAttrTbl[n + 3]? = none := by
      simp [MyGPIO_ServiceAttrTbl]
    rw [hn] at h
    cases h

/-- Witness for C20: row 2 is the row whose storage is `ps_PINVal`. -/
theorem tbl_resolution_total_witness :
    pinValueRow.pValue = ValueRef.ps_PINVal ↔ 2 = 2 :=
  tbl_resolution_total.2.2.2.2.2.1 2 pinValueRow (by decide)

end MyGPIOService
